import Mathlib

/-!
Shallow embedding of the settlement generator in
`src/world/src/site/settlement/mod.rs`, together with proofs about its
data model and algorithms.  Machine integers (`i32`, `u32`, `usize`) are
modelled as `Int`/`Nat`: the generator works at coordinate scales far below
any overflow boundary, and no arithmetic in the translated code depends on
wrapping.  Floating-point quantities that only ever feed integer
comparisons (`radius() as i32`, squared distances against squared radii)
are translated to the exact integer/rational computation they denote.
-/

namespace Veloren

set_option maxRecDepth 2048

/-- 2D integer coordinate (`Vec2<i32>`). -/
abbrev Coord : Type := Int × Int

/-- Componentwise addition of coordinates. -/
def cadd (a b : Coord) : Coord := (a.1 + b.1, a.2 + b.2)

/-- Componentwise subtraction of coordinates. -/
def csub (a b : Coord) : Coord := (a.1 - b.1, a.2 - b.2)

/-- Chebyshev norm, `tile.map(|e| e.abs()).reduce_max()`. -/
def chebN (c : Coord) : Nat := max c.1.natAbs c.2.natAbs

/-- `a.distance_squared(b)`. -/
def dist2 (a b : Coord) : Int := (a.1 - b.1) ^ 2 + (a.2 - b.2) ^ 2

/-- `AREA_SIZE` (side of one tile-space cell in world blocks). -/
def areaSize : Int := 32

/-- `TerrainChunkSize::RECT_SIZE.x`; external constant, the generator only
divides world positions by it. -/
def chunkSize : Int := 32

/-- `to_tile`: `((e as f32).div_euclid(AREA_SIZE as f32)).floor() as i32`,
exactly Euclidean division by 32 at the magnitudes involved. -/
def toTile (e : Int) : Int := Int.ediv e 32

/-- `to_tile` applied to both components (`wpos.map(to_tile)`). -/
def toTileC (c : Coord) : Coord := (toTile c.1, toTile c.2)

/-- Modelled from the spec: the pipeline threads one caller-supplied seeded
random source (`impl Rng`, passed by exclusive reference and never retained).
The concrete engine is outside this repository, so we model it as a pure
linear-congruential state machine with explicit state passing; an
"identically-seeded RNG" is an equal `Rng` value. -/
structure Rng where
  state : Nat
deriving DecidableEq, Repr

/-- One raw draw from the source. -/
def Rng.next (r : Rng) : Nat × Rng :=
  let s := (r.state * 1103515245 + 12345) % 2147483648
  (s, ⟨s⟩)

/-- `rng.gen::<u32>()`-style draw of a raw value. -/
def genNat (r : Rng) : Nat × Rng := r.next

/-- `rng.gen_range(lo, hi)`: a draw in the half-open interval `[lo, hi)`. -/
def genRange (lo hi : Int) (r : Rng) : Int × Rng :=
  let (v, r') := r.next
  (lo + (v : Int) % (hi - lo), r')

/-- The `Crop` enum (10 variants). -/
inductive Crop
  | corn
  | wheat
  | cabbage
  | pumpkin
  | flax
  | carrot
  | tomato
  | radish
  | turnip
  | sunflower
deriving DecidableEq, Repr

/-- The `WayKind` enum. -/
inductive WayKind
  | path
  | wall
deriving DecidableEq, Repr

/-- The `Tower` enum. -/
inductive Tower
  | wall
deriving DecidableEq, Repr

/-- `Tower::radius()` is 6.0 for `Wall`; we carry its square so the
`dist² < radius²` comparison in `get_at_block` stays in integers. -/
def towerRadius2 : Tower → Int
  | Tower.wall => 36

/-- `WayKind::width()` squared (`Path` ↦ 4.0, `Wall` ↦ 3.0). -/
def wayWidth2 : WayKind → ℚ
  | WayKind.path => 16
  | WayKind.wall => 9

/-- The `Plot` enum.  `Id<District>` and `Id<Farm>` are arena indices,
modelled as `Nat` (the arenas are append-only, see `Land.newPlot`). -/
inductive Plot
  | hazard
  | dirt
  | grass
  | water
  | town (district : Option Nat)
  | field (farm : Nat) (seed : Nat) (crop : Crop)
deriving DecidableEq, Repr

/-- `CARDINALS`, in source order: `+y, +x, -y, -x`. -/
def cardinals : List Coord := [(0, 1), (1, 0), (0, -1), (-1, 0)]

/-- A tile record: one plot id, four optional way markers (indexed as the
source's `ways: [Option<WayKind>; 4]`), one optional tower marker. -/
structure Tile where
  plot : Nat
  ways : List (Option WayKind)
  tower : Option Tower
deriving DecidableEq, Repr

/-- Way marker at index `i` (the source only indexes with `0..4`). -/
def Tile.way (t : Tile) (i : Nat) : Option WayKind := t.ways.getD i none

/-- Overwrite the way marker at index `i`. -/
def Tile.setWay (t : Tile) (i : Nat) (k : WayKind) : Tile :=
  { t with ways := t.ways.set i (some k) }

/-- `Tile::contains`: some way slot holds `kind`. -/
def Tile.containsWay (t : Tile) (kind : WayKind) : Bool :=
  t.ways.any (fun w => w = some kind)

/-- A fresh tile as produced by `Land::set`: given plot, no ways, no tower. -/
def mkTile (p : Nat) : Tile := ⟨p, [none, none, none, none], none⟩

/-- The sparse tile map (`HashMap<Vec2<i32>, Tile, FxHasher64>`), modelled as
an association list with last-insert-wins lookup; the source's hasher is
deterministic and the map is only ever read through single-key lookup. -/
def tmGet : List (Coord × Tile) → Coord → Option Tile
  | [], _ => none
  | e :: t, c => if e.1 = c then some e.2 else tmGet t c

/-- Keyed insert.  `HashMap::insert` replaces the previous binding; the map
is only ever observed through `tmGet`, for which prepending is the same
replacement. -/
def tmInsert (m : List (Coord × Tile)) (c : Coord) (t : Tile) :
    List (Coord × Tile) :=
  (c, t) :: m

/-- `Land`: sparse tile grid, append-only plot arena (`Store<Plot>` is an
index-addressed growable array whose ids are insertion indices — modelled
from the spec, the store type itself lives outside this repository), the
jittered-grid sampler seed, and the distinguished hazard plot id. -/
structure Land where
  tiles : List (Coord × Tile)
  plots : List Plot
  samplerSeed : Nat
  hazard : Nat
deriving DecidableEq, Repr

/-- `Land::new`: empty tile map, arena holding exactly one `Hazard` entry
(id 0), sampler seeded from the rng. -/
def Land.new (r : Rng) : Land × Rng :=
  (⟨[], [Plot.hazard], (genNat r).1, 0⟩, (genNat r).2)

/-- `Land::tile_at`. -/
def Land.tileAt (l : Land) (c : Coord) : Option Tile := tmGet l.tiles c

/-- `Land::plot_at`: the plot value referenced by the tile at `c`, when a tile
is present (the source's `Store::get` cannot fail on ids produced by
insertion; out-of-range ids simply have no entry here). -/
def Land.plotAt (l : Land) (c : Coord) : Option Plot :=
  (l.tileAt c).bind (fun t => l.plots.get? t.plot)

/-- `Land::set`: insert or overwrite the tile at `pos` with the given plot id,
no ways, no tower. -/
def Land.set (l : Land) (c : Coord) (p : Nat) : Land :=
  { l with tiles := tmInsert l.tiles c (mkTile p) }

/-- `Land::new_plot`: append to the arena; the fresh id is the old length. -/
def Land.newPlot (l : Land) (p : Plot) : Nat × Land :=
  (l.plots.length, { l with plots := l.plots ++ [p] })

/-! ### Spiral enumeration

`Spiral2d` lives in `common/src/spiral.rs`, outside this repository.
Modelled from the spec: "a deterministic spiral ordering (center first, then
rings of increasing Chebyshev radius, a fixed angular order within each
ring)".  `ring r` enumerates exactly the cells of Chebyshev norm `r`, in a
fixed deterministic order; `spiralCells n` concatenates rings `0..n-1`.
Every property proved below depends only on the ring structure, never on the
order inside one ring. -/

/-- All cells of the square `[-r, r] × [-r, r]`, in a fixed order. -/
def squareCells (r : Nat) : List Coord :=
  ((List.range (2 * r + 1)) ×ˢ (List.range (2 * r + 1))).map
    (fun p => ((p.1 : Int) - r, (p.2 : Int) - r))

/-- Ring `r` of the spiral: the cells at Chebyshev distance exactly `r`. -/
def ring (r : Nat) : List Coord :=
  (squareCells r).filter (fun c => decide (chebN c = r))

/-- The first `n` rings of the spiral, in ring order. -/
def spiralCells (n : Nat) : List Coord :=
  (List.range n).flatMap ring

/-- `Land::find_tile_near`: spiral outward from `origin`, return the first
coordinate whose (possibly absent) plot satisfies the predicate.  The source
iterates an unbounded spiral and diverges on an unsatisfiable predicate (a
documented hazard of the design); we bound the scan by a ring budget.
Whenever this returns `some c`, the source returns exactly `c`; a `none`
means the source would keep spiralling beyond the budget. -/
def findTileNear (fuel : Nat) (l : Land) (origin : Coord)
    (p : Option Plot → Bool) : Option Coord :=
  ((spiralCells fuel).map (cadd origin)).find? (fun c => p (l.plotAt c))

/-- Ring budget used at the pipeline's `find_tile_near` call sites: far
beyond the ~13 rings the generator ever designates around the origin. -/
def searchFuel : Nat := 64

/-! ### Region growth (`Land::grow_from`) -/

/-- Neighbour offsets used by `grow_from`, in source order. -/
def dirs4 : List Coord := [(1, 0), (-1, 0), (0, 1), (0, -1)]

/-- The `while open.len() + closed.len() < max_size` loop of `grow_from`.
`opn` is the `VecDeque` (front = head, may contain duplicates), `closed` the
hash set (duplicate-free).  The source loop carries no fuel and terminates
in finitely many iterations; the fuel here only truncates, every theorem
about the loop quantifies over it, and the pipeline passes a fuel far above
any iteration count reachable with its `max_size < 24`. -/
def growLoop (l : Land) (p : Option Plot → Bool) (maxSize : Nat) :
    Nat → List Coord → List Coord → List Coord
  | 0, opn, closed => (closed ++ opn).dedup
  | Nat.succ _, [], closed =>
    -- whether the loop exits via its size condition or via the failed pop,
    -- the result is `closed ∪ open` with `open` empty
    (closed ++ ([] : List Coord)).dedup
  | Nat.succ fuel, x :: rest, closed =>
    if (x :: rest).length + closed.length < maxSize then
      let closed' := if x ∈ closed then closed else x :: closed
      let pushes := (dirs4.map (fun d => cadd x d)).filter
        (fun nb => !(decide (nb ∈ closed')) && p (l.plotAt nb))
      growLoop l p maxSize fuel (rest ++ pushes) closed'
    else (closed ++ x :: rest).dedup

/-- Loop fuel for the pipeline's `grow_from` calls (`max_size < 24`). -/
def growFuel : Nat := 4096

/-- `Land::grow_from` (the rng parameter of the source is unused there and
is therefore not threaded).  Returns the final `closed ∪ open` as a
duplicate-free list. -/
def Land.growFrom (l : Land) (start : Coord) (maxSize : Nat)
    (p : Option Plot → Bool) : List Coord :=
  growLoop l p maxSize growFuel [start] []

/-! ### Path writing (`Land::write_path`) -/

/-- The direction-index computation of `write_path`'s window body: `+y ↦ 1`,
else `+x ↦ 2`, else `-y ↦ 3`, else `-x ↦ 0`, else (zero delta) skip. -/
def dirIdx (d : Coord) : Option Nat :=
  if d.2 > 0 then some 1
  else if d.1 > 0 then some 2
  else if d.2 < 0 then some 3
  else if d.1 < 0 then some 0
  else none

/-- The per-side marker update: if a tile exists at `c` and its plot passes
`permit`, set way slot `i` (unless occupied and `overwrite` is off). -/
def updWay (l : Land) (c : Coord) (i : Nat) (kind : WayKind)
    (permit : Plot → Bool) (overwrite : Bool) : Land :=
  match l.tileAt c with
  | none => l
  | some t =>
    match l.plots.get? t.plot with
    | none => l
    | some pl =>
      if permit pl then
        if overwrite || (t.way i).isNone then
          { l with tiles := tmInsert l.tiles c (t.setWay i kind) }
        else l
      else l

/-- One `windows(2)` step of `write_path`. -/
def writePathPair (l : Land) (kind : WayKind) (permit : Plot → Bool)
    (overwrite : Bool) (a b : Coord) : Land :=
  match dirIdx (csub b a) with
  | none => l
  | some idx =>
    let l1 := if (l.tileAt a).isNone then l.set a l.hazard else l
    let l2 := updWay l1 b ((idx + 2) % 4) kind permit overwrite
    updWay l2 a idx kind permit overwrite

/-- Consecutive pairs of a list (`slice::windows(2)`). -/
def windows2 : List Coord → List (Coord × Coord)
  | a :: b :: t => (a, b) :: windows2 (b :: t)
  | _ => []

/-- `Land::write_path`. -/
def Land.writePath (l : Land) (tiles : List Coord) (kind : WayKind)
    (permit : Plot → Bool) (overwrite : Bool) : Land :=
  (windows2 tiles).foldl
    (fun acc pr => writePathPair acc kind permit overwrite pr.1 pr.2) l

/-! ### Jittered-grid sampler and `Land::get_at_block`

`StructureGen2d` lives in `world/src/util`, outside this repository.
Modelled from the spec: a deterministic seeded jittered-grid generator;
`get(pos)` yields the 9 cell centers of the 3×3 block of grid cells around
the cell containing `pos`, each center being the cell's midpoint displaced
by a seed-and-cell-keyed jitter bounded by the spread
(`AREA_SIZE * 2 / 5 = 12`); index 4 of the result is the home cell of `pos`
itself. -/

/-- Deterministic per-cell, per-axis jitter in `[-12, 12]`. -/
def jitter (seed : Nat) (cell : Coord) (axis : Nat) : Int :=
  ((((seed : Int) + cell.1 * 73 + cell.2 * 91 + (axis : Int) * 41) ^ 2 * 31
      + (seed : Int)).emod 25) - 12

/-- The grid cell containing a world position. -/
def posCell (pos : Coord) : Coord :=
  (Int.ediv pos.1 areaSize, Int.ediv pos.2 areaSize)

/-- The jittered center of a grid cell. -/
def samplerCenter (seed : Nat) (cell : Coord) : Coord :=
  (cell.1 * areaSize + 16 + jitter seed cell 0,
   cell.2 * areaSize + 16 + jitter seed cell 1)

/-- The 3×3 neighbourhood offsets, row-major; index 4 is `(0, 0)`. -/
def offsets9 : List Coord :=
  [(-1, -1), (0, -1), (1, -1), (-1, 0), (0, 0), (1, 0), (-1, 1), (0, 1), (1, 1)]

/-- `sampler_warp.get(pos)`: the 9 jittered centers around `pos`. -/
def neighbors9 (seed : Nat) (pos : Coord) : List Coord :=
  offsets9.map (fun o => samplerCenter seed (cadd (posCell pos) o))

/-- First-minimal element by squared distance to `pos` (Rust
`Iterator::min_by_key` keeps the first of equally minimal elements). -/
def minByDist (pos : Coord) : List Coord → Option Coord
  | [] => none
  | x :: t =>
    some (t.foldl (fun best y => if dist2 y pos < dist2 best pos then y else best) x)

/-- The closest of the 9 jittered centers to `pos` (the `closest` binding of
`get_at_block`; the neighbourhood is never empty, `.unwrap()` is total). -/
def closestCenter (l : Land) (pos : Coord) : Coord :=
  (minByDist pos (neighbors9 l.samplerSeed pos)).getD (0, 0)

/-- The `second_closest` binding of `get_at_block`. -/
def secondClosestCenter (l : Land) (pos : Coord) : Coord :=
  (minByDist pos
    ((neighbors9 l.samplerSeed pos).filter
      (fun c => decide (c ≠ closestCenter l pos)))).getD (0, 0)

/-- The home center of the grid cell containing `pos` (`neighbors[4].0`). -/
def homeCenter (l : Land) (pos : Coord) : Coord :=
  samplerCenter l.samplerSeed (posCell pos)

/-- Squared distance from `p` to its projection on the segment `a`–`b`
(vek's `LineSegment2::projected_point` clamps to the segment).  The source
compares the (nonnegative) f32 distance against widths and other distances;
comparing exact squared rationals decides the same inequalities. -/
def projDist2 (a b p : Coord) : ℚ :=
  let ax : ℚ := (a.1 : ℚ)
  let ay : ℚ := (a.2 : ℚ)
  let vx : ℚ := (b.1 : ℚ) - ax
  let vy : ℚ := (b.2 : ℚ) - ay
  let px : ℚ := (p.1 : ℚ)
  let py : ℚ := (p.2 : ℚ)
  let den := vx ^ 2 + vy ^ 2
  let t0 := if den = 0 then 0 else ((px - ax) * vx + (py - ay) * vy) / den
  let t1 := max 0 (min 1 t0)
  (px - (ax + t1 * vx)) ^ 2 + (py - (ay + t1 * vy)) ^ 2

/-- The index permutation `map = [1, 5, 7, 3]` of `get_at_block`'s way scan. -/
def wayMap : List Nat := [1, 5, 7, 3]

/-- The composite result of `Land::get_at_block`.  `way` carries the squared
projection distance; `edge_dist` (a smooth-blend scalar never consulted by
any claim) is not carried. -/
structure Sample where
  plot : Option Plot
  way : Option (WayKind × ℚ)
  tower : Option (Tower × Coord)
  secondClosest : Coord
deriving DecidableEq, Repr

/-- The way-marker scan of `get_at_block`: for each cardinal `i`, project
`pos` onto the segment from the home center to neighbour `map[i]`, and keep
the way of smallest distance among those within their kind's width
(an incumbent strictly closer than the challenger is kept). -/
def wayScan (ns : List Coord) (centerTile : Option Tile) (pos : Coord) :
    Option (WayKind × ℚ) :=
  (List.range 4).foldl
    (fun acc i =>
      match centerTile.bind (fun t => t.way i) with
      | none => acc
      | some wk =>
        let d2 := projDist2 (ns.getD 4 (0, 0)) (ns.getD (wayMap.getD i 0) (0, 0)) pos
        if d2 < wayWidth2 wk then
          match acc with
          | some pr => if pr.2 < d2 then acc else some (wk, d2)
          | none => some (wk, d2)
        else acc)
    none

/-- `Land::get_at_block`. -/
def Land.getAtBlock (l : Land) (pos : Coord) : Sample :=
  let ns := neighbors9 l.samplerSeed pos
  let closest := (minByDist pos ns).getD (0, 0)
  let second := (minByDist pos
    (ns.filter (fun c => decide (c ≠ closest)))).getD (0, 0)
  let home := ns.getD 4 (0, 0)
  let centerTile := l.tileAt (toTileC home)
  let tower :=
    match centerTile.bind (fun t => t.tower) with
    | some tw => if dist2 home pos < towerRadius2 tw then some (tw, home) else none
    | none => none
  { plot := l.plotAt (toTileC closest)
    way := wayScan ns centerTile pos
    tower := tower
    secondClosest := toTileC second }

/-! ### World oracle and hazard designation -/

/-- Modelled from the spec: the world-simulation oracle.  `canHost` is the
response of `WorldSim::can_host_settlement` at a chunk coordinate (its body
reads river/slope data external to this repository); `getAltApprox` and
`nearestPathDist` are the altitude and nearest-path-distance responses used
by building placement (distances only ever feed a `< 28.0` comparison, so
an integer response decides it). -/
structure Oracle where
  canHost : Coord → Bool
  getAltApprox : Coord → Option Int
  nearestPathDist : Coord → Option Int

/-- `tile_radius = self.radius() as i32 / AREA_SIZE as i32 = 400 / 32`. -/
def tileRadius : Nat := 12

/-- The sub-point offsets sampled per cell by `designate_from_world`:
`(0..4).map(|x| (0..4).map(move |y| Vec2::new(x, y))).flatten()`. -/
def subOffsets : List Coord :=
  (List.range 4).flatMap (fun x => (List.range 4).map (fun y => ((x : Int), (y : Int))))

/-- The sub-point test of `designate_from_world`: does any of the sampled
sub-points of the cell at world position `wpos` land in a chunk the world
rejects?  Each offset is scaled by `AREA_SIZE / 2 = 16` and the resulting
world position divided (Euclideanly) by the chunk size. -/
def subFails (sim : Oracle) (wpos : Coord) : Bool :=
  subOffsets.any (fun o =>
    let wp := cadd wpos (o.1 * (Int.ediv areaSize 2), o.2 * (Int.ediv areaSize 2))
    !(sim.canHost (Int.ediv wp.1 chunkSize, Int.ediv wp.2 chunkSize)))

/-- One cell of `designate_from_world`'s spiral walk.  Rust's `||`
short-circuits: the 1-in-16 draw is consumed only when the sub-point test
passes everywhere. -/
def designateStep (sim : Oracle) (origin : Coord) (st : Land × Rng)
    (tile : Coord) : Land × Rng :=
  let wpos := cadd origin (tile.1 * areaSize, tile.2 * areaSize)
  if subFails sim wpos then (st.1.set tile st.1.hazard, st.2)
  else
    let v := genRange 0 16 st.2
    if v.1 = 0 then (st.1.set tile st.1.hazard, v.2) else (st.1, v.2)

/-- `Settlement::designate_from_world`: walk every spiral cell of Chebyshev
norm below `radius` (the source's `take_while` over the infinite spiral
stops at the first cell of ring `radius`, hence covers rings
`0..radius-1` exactly) and mark hazards. -/
def designate (sim : Oracle) (origin : Coord) (radius : Nat)
    (st : Land × Rng) : Land × Rng :=
  (spiralCells radius).foldl (designateStep sim origin) st

/-- The set of cells `designate` marks, as a pure list computation over the
same cell order and rng thread: a cell is marked exactly when its sub-point
test fails or, failing that, when its 1-in-16 draw (at the rng state the
walk reaches it with) fires. -/
def markSet (sim : Oracle) (origin : Coord) : List Coord → Rng → List Coord
  | [], _ => []
  | e :: t, rng =>
    let wpos := cadd origin (e.1 * areaSize, e.2 * areaSize)
    if subFails sim wpos then e :: markSet sim origin t rng
    else
      let v := genRange 0 16 rng
      if v.1 = 0 then e :: markSet sim origin t v.2
      else markSet sim origin t v.2

/-! ### Structures, buildings, town -/

/-- 2D axis-aligned bounding rectangle (`Aabr<i32>`). -/
structure Aabr where
  min : Coord
  max : Coord
deriving DecidableEq, Repr

/-- vek's `Aabr::collides_with_aabr` (strict overlap on both axes);
the building-bounds type is external, modelled from the spec's
"2D bounds overlap". -/
def collides (a b : Aabr) : Bool :=
  decide (b.min.1 < a.max.1) && decide (a.min.1 < b.max.1) &&
  decide (b.min.2 < a.max.2) && decide (a.min.2 < b.max.2)

/-- A placed structure: its 2D bounds and whether it is the keep.  The
per-voxel sampler of the source's `StructureKind` never feeds back into
generation, so it is not carried. -/
structure Structure where
  bounds2d : Aabr
  isKeep : Bool
deriving DecidableEq, Repr

/-- Modelled from the spec: `Building::<House>::generate(rng, pos)` /
`Building::<Keep>::generate(rng, pos)` — an external sub-generator consumed
through a narrow interface, "a placement record: a 2D and 3D bounding box".
It draws from the rng and yields bounds around `pos`. -/
def buildingGenerate (r : Rng) (pos : Coord) (isKeep : Bool) : Structure × Rng :=
  let (e, r') := genRange 3 8 r
  (⟨⟨(pos.1 - e, pos.2 - e), (pos.1 + e, pos.2 + e)⟩, isKeep⟩, r')

/-- A town district: a tile-space bounding rectangle and an altitude. -/
structure District where
  aabr : Aabr
  alt : Int
deriving DecidableEq, Repr

/-- The external `Town` as seen by the settlement: its base tile and an
ordered district collection (ids are list indices). -/
structure Town where
  baseTile : Coord
  districts : List District
deriving DecidableEq, Repr

/-- Modelled from the spec: `Town::generate(origin, base_tile, ctx)` — the
external town/district layout generator, consumed as "bounds, district
layout".  It draws an extent from the rng and lays one district out around
the base tile. -/
def townGenerate (_origin base : Coord) (r : Rng) : Town × Rng :=
  let (e, r') := genRange 1 3 r
  (⟨base, [⟨⟨base, cadd base (e, e)⟩, 0⟩]⟩, r')

/-- The `Settlement` record (the name is produced by the external
`NameGen`; generation draws it from the rng, and we keep the draw). -/
structure Settlement where
  name : Nat
  seed : Nat
  origin : Coord
  land : Land
  farms : List Coord
  structures : List Structure
  town : Option Town
  noise : Nat
deriving Repr

/-! ### Farms and fields -/

/-- The crop table of `place_field` (`match rng.gen_range(0, 8)`), with the
source's unreachable `_ => Crop::Sunflower` default arm kept verbatim. -/
def cropOfInt : Int → Crop
  | 0 => Crop.corn
  | 1 => Crop.wheat
  | 2 => Crop.cabbage
  | 3 => Crop.pumpkin
  | 4 => Crop.flax
  | 5 => Crop.carrot
  | 6 => Crop.tomato
  | 7 => Crop.radish
  | _ => Crop.sunflower

/-- `Settlement::place_field` restricted to its effect on the land (the
returned plot id is never consumed by the caller): find an undesignated
tile near `origin`, create a fresh `Field` plot (seed draw, then crop draw),
grow a region of drawn size (`gen_range(5, 24)`) over undesignated tiles,
and assign the plot to every grown tile. -/
def placeField (land : Land) (farm : Nat) (origin : Coord) (rng : Rng) :
    Land × Rng :=
  match findTileNear searchFuel land origin (fun p => p.isNone) with
  | some center =>
    let sv := genNat rng
    let cv := genRange 0 8 sv.2
    let np := land.newPlot (Plot.field farm sv.1 (cropOfInt cv.1))
    let zv := genRange 5 24 cv.2
    let tiles := np.2.growFrom center zv.1.toNat (fun p => p.isNone)
    (tiles.foldl (fun acc pos => acc.set pos np.1) np.2, zv.2)
  | none => (land, rng)

/-- One field of the `FIELDS_PER_FARM` loop of `place_farms`. -/
def fieldStep (farmId : Nat) (base : Coord) (st : Settlement × Rng) (_ : Nat) :
    Settlement × Rng :=
  ({ st.1 with land := (placeField st.1.land farmId base st.2).1 },
   (placeField st.1.land farmId base st.2).2)

/-- One farm of the `FARM_COUNT` loop: find an undesignated base tile,
register the farm (id = insertion index), grow its five fields. -/
def farmStep (st : Settlement × Rng) (_ : Nat) : Settlement × Rng :=
  match findTileNear searchFuel st.1.land (0, 0) (fun p => p.isNone) with
  | some base =>
    (List.range 5).foldl (fieldStep st.1.farms.length base)
      ({ st.1 with farms := st.1.farms ++ [base] }, st.2)
  | none => st

/-- `Settlement::place_farms`: `FARM_COUNT = 6` farm attempts. -/
def placeFarms (s : Settlement) (rng : Rng) : Settlement × Rng :=
  (List.range 6).foldl farmStep (s, rng)

/-! ### Town placement -/

/-- `a.min.x ..< a.max.x` as a list of integers. -/
def intRange (a b : Int) : List Int :=
  (List.range (b - a).toNat).map (fun k => a + (k : Int))

/-- One cell of a district's footprint copy: skip cells already designated
`Hazard`, otherwise assign the district's plot id. -/
def districtCellStep (pid : Nat) (x : Int) (l2 : Land) (y : Int) : Land :=
  if l2.plotAt (x, y) = some Plot.hazard then l2 else l2.set (x, y) pid

/-- One column (`x`) of a district's footprint copy. -/
def districtColStep (pid : Nat) (lo hi : Int) (lx : Land) (x : Int) : Land :=
  (intRange lo hi).foldl (districtCellStep pid x) lx

/-- Copy one district's footprint into the land as a fresh
`Town { district }` plot, skipping cells already designated `Hazard`. -/
def applyDistrict (land : Land) (idx : Nat) (d : District) : Land :=
  (intRange d.aabr.min.1 d.aabr.max.1).foldl
    (districtColStep (land.newPlot (Plot.town (some idx))).1
      d.aabr.min.2 d.aabr.max.2)
    (land.newPlot (Plot.town (some idx))).2

/-- The tile predicate of `place_town`'s spiral search: field or dirt. -/
def townSitePred : Option Plot → Bool
  | some (Plot.field _ _ _) => true
  | some Plot.dirt => true
  | _ => false

/-- Copy all of a town's districts into the land. -/
def applyDistricts (tw : Town) (land : Land) : Land :=
  (List.range tw.districts.length).foldl
    (fun l j => applyDistrict l j (tw.districts.getD j ⟨⟨(0, 0), (0, 0)⟩, 0⟩)) land

/-- One attempt of `place_town`'s `PLOT_COUNT` loop (only attempt 0 builds). -/
def townStep (st : Settlement × Rng × Coord) (i : Nat) : Settlement × Rng × Coord :=
  match findTileNear searchFuel st.1.land st.2.2 townSitePred with
  | some base =>
    if i = 0 then
      let tw := townGenerate st.1.origin base st.2.1
      ({ st.1 with land := applyDistricts tw.1 st.1.land, town := some tw.1 },
       tw.2, base)
    else st
  | none => st

/-- `Settlement::place_town`: one random search origin drawn by two
`gen_range(-2, 3)` calls, then `PLOT_COUNT = 3` attempts. -/
def placeTown (s : Settlement) (rng : Rng) : Settlement × Rng :=
  let o1 := genRange (-2) 3 rng
  let o2 := genRange (-2) 3 o1.2
  let res := (List.range 3).foldl townStep (s, o2.2, (o1.1, o2.1))
  (res.1, res.2.1)

/-! ### Building placement -/

/-- The house-position rejection test of `place_buildings`: the candidate's
tile already carries a path (or has no tile record at all), or the world's
nearest path is closer than 28 blocks. -/
def nearPathReject (sim : Option Oracle) (s : Settlement) (housePos : Coord)
    (tilePos : Coord) : Bool :=
  (match s.land.tileAt tilePos with
   | some t => t.containsWay WayKind.path
   | none => true) ||
  (match sim with
   | some o =>
     match o.nearestPathDist (cadd s.origin housePos) with
     | some d => decide (d < 28)
     | none => false
   | none => false)

/-- The 25-attempt retry loop for one building slot (`for _ in 0..25` with
`continue`/`break`): draw a jittered position inside the tile, reject it
near paths or outside town plots, generate the building, reject it on 2D
collision with any already-placed structure, else push it and stop. -/
def tryPlaceAttempts (sim : Option Oracle) (townCenter tile : Coord) (i : Nat) :
    Nat → Settlement × Rng → Settlement × Rng
  | 0, st => st
  | Nat.succ n, st =>
    let d1 := genRange (-8) 8 st.2
    let d2 := genRange (-8) 8 d1.2
    let housePos : Coord := (tile.1 * areaSize + Int.ediv areaSize 2 + d1.1,
                             tile.2 * areaSize + Int.ediv areaSize 2 + d2.1)
    let tilePos : Coord := (Int.ediv housePos.1 areaSize, Int.ediv housePos.2 areaSize)
    if nearPathReject sim st.1 housePos tilePos then
      tryPlaceAttempts sim townCenter tile i n (st.1, d2.2)
    else
      match st.1.land.plotAt tilePos with
      | some (Plot.town _) =>
        -- the district-altitude draw (`filter(|_| false).unwrap_or_else ...`)
        -- always falls back to the world altitude and consumes no rng;
        -- altitude only sets the structure's z, which 2D bounds ignore
        let bg := buildingGenerate d2.2 housePos
          (decide (tile = townCenter) && decide (i = 0))
        if st.1.structures.any (fun s2 => collides s2.bounds2d bg.1.bounds2d) then
          tryPlaceAttempts sim townCenter tile i n (st.1, bg.2)
        else ({ st.1 with structures := st.1.structures ++ [bg.1] }, bg.2)
      | _ => tryPlaceAttempts sim townCenter tile i n (st.1, d2.2)

/-- One spiral cell of `place_buildings`: draw the slot count
(`gen_range(2, 5)`) and run the retry loop for each slot. -/
def placeBuildingsTile (sim : Option Oracle) (townCenter : Coord)
    (st : Settlement × Rng) (tile : Coord) : Settlement × Rng :=
  (List.range (genRange 2 5 st.2).1.toNat).foldl
    (fun st2 i => tryPlaceAttempts sim townCenter tile i 25 st2)
    (st.1, (genRange 2 5 st.2).2)

/-- One iteration of the `place_buildings` spiral walk: the loop body of
`for tile in Spiral2d::new().map(|p| town_center + p).take(16usize.pow(2))`,
with the spiral offset still to be added to the town center. -/
def pbStep (sim : Option Oracle) (tc : Coord) (st : Settlement × Rng)
    (offs : Coord) : Settlement × Rng :=
  placeBuildingsTile sim tc st (cadd tc offs)

/-- `Settlement::place_buildings`: nothing without a town; otherwise walk
the first `16² = 256` spiral cells around the town center. -/
def placeBuildings (sim : Option Oracle) (s : Settlement) (rng : Rng) :
    Settlement × Rng :=
  match s.town with
  | none => (s, rng)
  | some town =>
    ((spiralCells 9).take 256).foldl (pbStep sim town.baseTile) (s, rng)

/-! ### The generation pipeline -/

/-- The state after the `Self { ... }` initializer of `generate`: the name
draw stands for the external `NameGen::location(rng).generate()` (modelled
from the spec as one rng consumption), then the seed draw, the fresh land
(sampler seed draw) and the noise field seed draw — in source order. -/
def genBase (wpos : Coord) (rng : Rng) : Settlement × Rng :=
  let r1 := genNat rng
  let r2 := genNat r1.2
  let lr := Land.new r2.2
  let r4 := genNat lr.2
  ({ name := r1.1, seed := r2.1, origin := wpos, land := lr.1,
     farms := [], structures := [], town := none, noise := r4.1 }, r4.2)

/-- The state after the optional `designate_from_world` stage. -/
def genDesignated (wpos : Coord) (sim : Option Oracle) (rng : Rng) :
    Settlement × Rng :=
  match sim with
  | some o =>
    ({ (genBase wpos rng).1 with
        land := (designate o wpos tileRadius
          ((genBase wpos rng).1.land, (genBase wpos rng).2)).1 },
     (designate o wpos tileRadius
       ((genBase wpos rng).1.land, (genBase wpos rng).2)).2)
  | none => genBase wpos rng

/-- `Settlement::generate`: base state, optional hazard designation, farms,
town, buildings — in source order. -/
def Settlement.generate (wpos : Coord) (sim : Option Oracle) (rng : Rng) :
    Settlement × Rng :=
  let d := genDesignated wpos sim rng
  let f := placeFarms d.1 d.2
  let t := placeTown f.1 f.2
  placeBuildings sim t.1 t.2

/-! ## Lemmas: tile map and land primitives -/

theorem tmGet_tmInsert_self (m : List (Coord × Tile)) (c : Coord) (t : Tile) :
    tmGet (tmInsert m c t) c = some t := by
  simp [tmInsert, tmGet]

theorem tmGet_tmInsert_ne (m : List (Coord × Tile)) (c c' : Coord) (t : Tile)
    (h : c' ≠ c) : tmGet (tmInsert m c t) c' = tmGet m c' := by
  simp only [tmInsert, tmGet]
  rw [if_neg (fun hh => h hh.symm)]

theorem Land.tileAt_set_self (l : Land) (c : Coord) (p : Nat) :
    (l.set c p).tileAt c = some (mkTile p) := by
  simp [Land.set, Land.tileAt, tmGet_tmInsert_self]

theorem Land.tileAt_set_ne (l : Land) (c c' : Coord) (p : Nat) (h : c' ≠ c) :
    (l.set c p).tileAt c' = l.tileAt c' := by
  simp [Land.set, Land.tileAt, tmGet_tmInsert_ne _ _ _ _ h]

theorem Land.set_plots (l : Land) (c : Coord) (p : Nat) :
    (l.set c p).plots = l.plots := rfl

theorem Land.set_hazard (l : Land) (c : Coord) (p : Nat) :
    (l.set c p).hazard = l.hazard := rfl

theorem Land.newPlot_get (l : Land) (p : Plot) :
    ((l.newPlot p).2).plots.get? (l.newPlot p).1 = some p := by
  simp [Land.newPlot]

theorem Land.newPlot_get_lt (l : Land) (p : Plot) (i : Nat)
    (h : i < l.plots.length) :
    ((l.newPlot p).2).plots.get? i = l.plots.get? i := by
  simp [Land.newPlot, List.getElem?_append_left h]

theorem Land.newPlot_tiles (l : Land) (p : Plot) :
    ((l.newPlot p).2).tiles = l.tiles := rfl

/-! ## Lemmas: spiral enumeration -/

theorem mem_squareCells (r : Nat) (c : Coord) :
    c ∈ squareCells r ↔ c.1.natAbs ≤ r ∧ c.2.natAbs ≤ r := by
  obtain ⟨cx, cy⟩ := c
  simp only [squareCells, List.mem_map]
  constructor
  · rintro ⟨⟨p1, p2⟩, hp, hf⟩
    rw [List.mem_product] at hp
    obtain ⟨h1, h2⟩ := hp
    rw [List.mem_range] at h1 h2
    simp only [Prod.mk.injEq] at hf
    obtain ⟨hfx, hfy⟩ := hf
    constructor <;> omega
  · rintro ⟨h1, h2⟩
    refine ⟨((cx + r).toNat, (cy + r).toNat), ?_, ?_⟩
    · rw [List.mem_product, List.mem_range, List.mem_range]
      constructor <;> omega
    · simp only [Prod.mk.injEq]
      constructor <;> omega

theorem nodup_squareCells (r : Nat) : (squareCells r).Nodup := by
  refine List.Nodup.map ?_ (List.Nodup.product (List.nodup_range _) (List.nodup_range _))
  rintro ⟨a1, a2⟩ ⟨b1, b2⟩ h
  simp only [Prod.mk.injEq] at h ⊢
  obtain ⟨h1, h2⟩ := h
  constructor <;> omega

theorem mem_ring (r : Nat) (c : Coord) : c ∈ ring r ↔ chebN c = r := by
  simp only [ring, List.mem_filter, decide_eq_true_eq, mem_squareCells]
  constructor
  · exact fun h => h.2
  · intro h
    refine ⟨⟨?_, ?_⟩, h⟩
    · calc c.1.natAbs ≤ max c.1.natAbs c.2.natAbs := Nat.le_max_left _ _
        _ = r := h
    · calc c.2.natAbs ≤ max c.1.natAbs c.2.natAbs := Nat.le_max_right _ _
        _ = r := h

theorem nodup_ring (r : Nat) : (ring r).Nodup :=
  (nodup_squareCells r).filter _

theorem mem_spiralCells (n : Nat) (c : Coord) :
    c ∈ spiralCells n ↔ chebN c < n := by
  simp only [spiralCells, List.mem_flatMap, List.mem_range]
  constructor
  · rintro ⟨r, hr, hc⟩
    rw [mem_ring] at hc
    omega
  · intro h
    exact ⟨chebN c, h, (mem_ring _ _).2 rfl⟩

theorem spiralCells_succ (n : Nat) :
    spiralCells (n + 1) = spiralCells n ++ ring n := by
  simp [spiralCells, List.range_succ]

theorem nodup_spiralCells (n : Nat) : (spiralCells n).Nodup := by
  induction n with
  | zero => simp [spiralCells]
  | succ k ih =>
    rw [spiralCells_succ]
    refine List.Nodup.append ih (nodup_ring k) ?_
    intro c hc hc'
    rw [mem_spiralCells] at hc
    rw [mem_ring] at hc'
    omega

/-! ## Lemmas: rng draws -/

theorem genRange_mem (lo hi : Int) (r : Rng) (h : lo < hi) :
    lo ≤ (genRange lo hi r).1 ∧ (genRange lo hi r).1 < hi := by
  have hpos : 0 < hi - lo := by omega
  constructor
  · have := Int.emod_nonneg ((Rng.next r).1 : Int) (by omega : hi - lo ≠ 0)
    simp only [genRange]
    omega
  · have := Int.emod_lt_of_pos ((Rng.next r).1 : Int) hpos
    simp only [genRange]
    omega

/-! ## Lemmas: the `grow_from` loop -/

/-- The coordinates a popped node pushes are its `dirs4`-neighbours and pass
the admission predicate. -/
theorem mem_pushes {l : Land} {p : Option Plot → Bool} {a nb : Coord}
    {closed' : List Coord}
    (h : nb ∈ (dirs4.map (fun d => cadd a d)).filter
      (fun nb => !(decide (nb ∈ closed')) && p (l.plotAt nb))) :
    (∃ d ∈ dirs4, nb = cadd a d) ∧ p (l.plotAt nb) = true := by
  rw [List.mem_filter] at h
  obtain ⟨hm, hp⟩ := h
  rw [List.mem_map] at hm
  obtain ⟨d, hd, rfl⟩ := hm
  simp only [Bool.and_eq_true] at hp
  exact ⟨⟨d, hd, rfl⟩, hp.2⟩

theorem growLoop_zero (l : Land) (p : Option Plot → Bool) (m : Nat)
    (opn closed : List Coord) :
    growLoop l p m 0 opn closed = (closed ++ opn).dedup := rfl

theorem growLoop_nil (l : Land) (p : Option Plot → Bool) (m k : Nat)
    (closed : List Coord) :
    growLoop l p m (k + 1) [] closed = (closed ++ ([] : List Coord)).dedup := rfl

theorem growLoop_stop (l : Land) (p : Option Plot → Bool) (m k : Nat)
    (opn closed : List Coord) (h : ¬(opn.length + closed.length < m)) :
    growLoop l p m (k + 1) opn closed = (closed ++ opn).dedup := by
  cases opn with
  | nil => rfl
  | cons a rest =>
    rw [growLoop]
    rw [if_neg h]

theorem growLoop_step (l : Land) (p : Option Plot → Bool) (m k : Nat)
    (a : Coord) (rest closed : List Coord)
    (h : (a :: rest).length + closed.length < m) :
    growLoop l p m (k + 1) (a :: rest) closed =
      growLoop l p m k
        (rest ++ (dirs4.map (fun d => cadd a d)).filter
          (fun nb => !(decide (nb ∈ (if a ∈ closed then closed else a :: closed)))
            && p (l.plotAt nb)))
        (if a ∈ closed then closed else a :: closed) := by
  rw [growLoop]
  rw [if_pos h]

/-- No coordinate is ever dropped: the loop's result contains everything in
`closed ++ opn` (pops move elements from the queue into the closed set
before use). -/
theorem growLoop_mem (l : Land) (p : Option Plot → Bool) (m : Nat) :
    ∀ (fuel : Nat) (opn closed : List Coord) (x : Coord),
      x ∈ closed ++ opn → x ∈ growLoop l p m fuel opn closed := by
  intro fuel
  induction fuel with
  | zero =>
    intro opn closed x hx
    rw [growLoop_zero]
    simpa [List.mem_dedup] using hx
  | succ k ih =>
    intro opn closed x hx
    by_cases hcond : opn.length + closed.length < m
    · cases opn with
      | nil =>
        rw [growLoop_nil]
        simpa [List.mem_dedup] using hx
      | cons a rest =>
        rw [growLoop_step l p m k a rest closed hcond]
        apply ih
        simp only [List.mem_append] at hx ⊢
        rcases hx with hc | hxo
        · left
          by_cases ha : a ∈ closed
          · simpa [ha] using hc
          · rw [if_neg ha]
            exact List.mem_cons_of_mem _ hc
        · rcases List.mem_cons.mp hxo with rfl | hr
          · left
            by_cases ha : x ∈ closed <;> simp [ha]
          · right
            exact Or.inl hr
    · rw [growLoop_stop l p m k opn closed hcond]
      simpa [List.mem_dedup] using hx

/-- Everything the loop returns other than what it started with satisfied
the admission predicate at push time (the predicate is pure, so "at the
moment it was admitted" is simply "satisfies `p`"). -/
theorem growLoop_pred (l : Land) (p : Option Plot → Bool) (m : Nat)
    (start : Coord) :
    ∀ (fuel : Nat) (opn closed : List Coord),
      (∀ x ∈ closed ++ opn, x = start ∨ p (l.plotAt x) = true) →
      ∀ x ∈ growLoop l p m fuel opn closed,
        x = start ∨ p (l.plotAt x) = true := by
  intro fuel
  induction fuel with
  | zero =>
    intro opn closed hinv x hx
    rw [growLoop_zero] at hx
    exact hinv x (by simpa [List.mem_dedup] using hx)
  | succ k ih =>
    intro opn closed hinv x hx
    by_cases hcond : opn.length + closed.length < m
    · cases opn with
      | nil =>
        rw [growLoop_nil] at hx
        exact hinv x (by simpa [List.mem_dedup] using hx)
      | cons a rest =>
        rw [growLoop_step l p m k a rest closed hcond] at hx
        refine ih _ _ ?_ x hx
        intro y hy
        simp only [List.mem_append] at hy
        rcases hy with hc | hyo
        · by_cases ha : a ∈ closed
          · exact hinv y (by rw [if_pos ha] at hc; simp [hc])
          · rw [if_neg ha] at hc
            rcases List.mem_cons.mp hc with rfl | hcc
            · exact hinv y (by simp)
            · exact hinv y (by simp [hcc])
        · rcases hyo with hr | hpush
          · exact hinv y (by simp [hr])
          · exact Or.inr (mem_pushes hpush).2
    · rw [growLoop_stop l p m k opn closed hcond] at hx
      exact hinv x (by simpa [List.mem_dedup] using hx)

/-- Connectivity within a coordinate set: a chain of `dirs4` steps whose
nodes all lie in `S`. -/
def ConnectedIn (S : List Coord) (a b : Coord) : Prop :=
  Relation.ReflTransGen (fun x y => (∃ d ∈ dirs4, y = cadd x d) ∧ y ∈ S) a b

theorem ConnectedIn.mono {S T : List Coord} (hST : ∀ y ∈ S, y ∈ T) {a b : Coord} :
    ConnectedIn S a b → ConnectedIn T a b :=
  Relation.ReflTransGen.mono (fun _ y h => ⟨h.1, hST y h.2⟩)

/-- The loop keeps its working set connected to whatever the given
connectivity invariant names as root: every returned coordinate is joined
to `start` by a 4-adjacent chain inside the returned set. -/
theorem growLoop_connected (l : Land) (p : Option Plot → Bool) (m : Nat)
    (start : Coord) :
    ∀ (fuel : Nat) (opn closed : List Coord),
      (∀ x ∈ closed ++ opn, ConnectedIn (closed ++ opn) start x) →
      ∀ x ∈ growLoop l p m fuel opn closed,
        ConnectedIn (growLoop l p m fuel opn closed) start x := by
  intro fuel
  induction fuel with
  | zero =>
    intro opn closed hinv x hx
    rw [growLoop_zero] at hx ⊢
    exact (hinv x (by simpa [List.mem_dedup] using hx)).mono
      (fun y hy => by simpa [List.mem_dedup] using hy)
  | succ k ih =>
    intro opn closed hinv x hx
    by_cases hcond : opn.length + closed.length < m
    · cases opn with
      | nil =>
        rw [growLoop_nil] at hx ⊢
        exact (hinv x (by simpa [List.mem_dedup] using hx)).mono
          (fun y hy => by simpa [List.mem_dedup] using hy)
      | cons a rest =>
        rw [growLoop_step l p m k a rest closed hcond] at hx ⊢
        refine ih _ _ ?_ x hx
        -- the new working set contains the old one
        have hsub : ∀ y, y ∈ closed ++ a :: rest →
            y ∈ (if a ∈ closed then closed else a :: closed) ++
              (rest ++ (dirs4.map (fun d => cadd a d)).filter
                (fun nb => !(decide (nb ∈ if a ∈ closed then closed else a :: closed))
                  && p (l.plotAt nb))) := by
          intro y hy
          simp only [List.mem_append] at hy ⊢
          rcases hy with hc | hyo
          · left
            by_cases ha : a ∈ closed
            · simpa [ha] using hc
            · rw [if_neg ha]
              exact List.mem_cons_of_mem _ hc
          · rcases List.mem_cons.mp hyo with rfl | hr
            · left
              by_cases ha : y ∈ closed <;> simp [ha]
            · right
              exact Or.inl hr
        intro y hy
        simp only [List.mem_append] at hy
        rcases hy with hc | hyo
        · have hyold : y ∈ closed ++ a :: rest := by
            by_cases ha : a ∈ closed
            · rw [if_pos ha] at hc
              exact List.mem_append_left _ hc
            · rw [if_neg ha] at hc
              rcases List.mem_cons.mp hc with rfl | hcc
              · exact List.mem_append_right _ (by simp)
              · exact List.mem_append_left _ hcc
          exact (hinv y hyold).mono hsub
        · rcases hyo with hr | hpush
          · exact (hinv y (by simp [hr])).mono hsub
          · obtain ⟨⟨d, hd, rfl⟩, _⟩ := mem_pushes hpush
            have ha : ConnectedIn _ start a :=
              (hinv a (by simp)).mono hsub
            exact ha.tail ⟨⟨d, hd, rfl⟩, by
              simp only [List.mem_append]
              right
              exact Or.inr hpush⟩
    · rw [growLoop_stop l p m k opn closed hcond] at hx ⊢
      exact (hinv x (by simpa [List.mem_dedup] using hx)).mono
        (fun y hy => by simpa [List.mem_dedup] using hy)

/-! ## Generic fold invariance -/

theorem foldl_inv {σ : Type _} {α : Type _} (P : σ → Prop) (f : σ → α → σ)
    (hf : ∀ s a, P s → P (f s a)) :
    ∀ (l : List α) (s : σ), P s → P (l.foldl f s) := by
  intro l
  induction l with
  | nil => intro s h; exact h
  | cons a t ih =>
    intro s h
    exact ih _ (hf s a h)

/-! ## Concrete test bench -/

/-- A fresh land exactly as `Land::new` builds it (zero sampler seed),
before any designation. -/
def demoLand : Land := ⟨[], [Plot.hazard], 0, 0⟩

/-! ## Claim C1 — determinism of `Settlement::generate` -/

/-- C1: for every origin, world-oracle and seed, two runs of
`Settlement::generate` with identically-seeded rngs produce bit-identical
settlements (tile map, plot arena, farm registry, structure list, town) and
identical final rng states.  In this embedding every stateful component —
the rng, the tile map, the plot arena — is explicit data, so the pipeline
is a pure function of `(wpos, sim, rng)` and two equal-seed runs coincide
definitionally. -/
theorem C1_generate_deterministic (wpos : Coord) (sim : Option Oracle)
    (r₁ r₂ : Rng) (h : r₁ = r₂) :
    Settlement.generate wpos sim r₁ = Settlement.generate wpos sim r₂ := by
  rw [h]

theorem C1_generate_deterministic_witness :
    Settlement.generate (0, 0) none ⟨7⟩ = Settlement.generate (0, 0) none ⟨7⟩ :=
  C1_generate_deterministic (0, 0) none ⟨7⟩ ⟨7⟩ rfl

/-! ## Claims C3 and C9 — `grow_from` -/

/-- C3 (counterexample): with an always-true predicate `grow_from` from
`(0,0)` with `max_size = 2` returns 5 coordinates, not
`min(max_size, reachable-tile-count) = 2`: the loop's exit check runs
before the pop, so the whole queued frontier (the 4 neighbours pushed by
the first pop) is included in the result. -/
theorem C3_grow_size_counterexample :
    (demoLand.growFrom (0, 0) 2 (fun _ => true)).length = 5 ∧
    ¬((demoLand.growFrom (0, 0) 2 (fun _ => true)).length = 2) := by
  constructor
  · decide
  · decide

/-- C3 (amended): `grow_from(start, N, p)` always returns a set containing
`start` that is connected under 4-adjacency from `start`; its size is NOT
exactly `min(N, reachable-tile-count)` — the queued frontier is part of the
result, so the size can exceed `N` (see the counterexample).  Stated over
the loop at every fuel, which covers the source's unfueled loop at whatever
iteration count it terminates in. -/
theorem C3_grow_connected (l : Land) (p : Option Plot → Bool) (start : Coord)
    (m fuel : Nat) :
    start ∈ growLoop l p m fuel [start] [] ∧
    ∀ x ∈ growLoop l p m fuel [start] [],
      ConnectedIn (growLoop l p m fuel [start] []) start x := by
  constructor
  · exact growLoop_mem l p m fuel [start] [] start (by simp)
  · refine growLoop_connected l p m start fuel [start] [] ?_
    intro x hx
    simp only [List.nil_append, List.mem_singleton] at hx
    subst hx
    exact Relation.ReflTransGen.refl

theorem C3_grow_connected_witness :
    ConnectedIn (growLoop demoLand (fun _ => true) 3 2 [(0, 0)] []) (0, 0) (1, 0) :=
  (C3_grow_connected demoLand (fun _ => true) (0, 0) 3 2).2 (1, 0) (by decide)

/-- C9: the grow loop's result always contains `start` (it is seeded into
the queue unconditionally, never tested against the predicate, and survives
`max_size = 0` and `1` since the exit paths return `closed ∪ open`), and
every other returned coordinate passed the admission predicate when it was
pushed.  Stated over the loop at every fuel, which covers the source's
unfueled loop at whatever iteration count it terminates in. -/
theorem C9_grow_start_and_pred (l : Land) (p : Option Plot → Bool)
    (start : Coord) (m fuel : Nat) :
    start ∈ growLoop l p m fuel [start] [] ∧
    ∀ x ∈ growLoop l p m fuel [start] [],
      x ≠ start → p (l.plotAt x) = true := by
  constructor
  · exact growLoop_mem l p m fuel [start] [] start (by simp)
  · intro x hx hne
    have := growLoop_pred l p m start fuel [start] []
      (fun y hy => by
        simp only [List.nil_append, List.mem_singleton] at hy
        exact Or.inl hy) x hx
    rcases this with h | h
    · exact absurd h hne
    · exact h

theorem C9_grow_start_and_pred_witness :
    (0, 0) ∈ growLoop demoLand (fun o => o.isSome) 4 growFuel [(0, 0)] [] ∧
    (fun o : Option Plot => o.isNone) (demoLand.plotAt (1, 0)) = true :=
  ⟨(C9_grow_start_and_pred demoLand (fun o => o.isSome) (0, 0) 4 growFuel).1,
   (C9_grow_start_and_pred demoLand (fun o => o.isNone) (0, 0) 3 2).2 (1, 0)
     (by decide) (by decide)⟩

/-! ## Claim C6 — `write_path` window handling -/

theorem dirIdx_ne_zero (d : Coord) (h : d ≠ ((0 : Int), (0 : Int))) :
    (dirIdx d).isSome = true := by
  obtain ⟨dx, dy⟩ := d
  unfold dirIdx
  by_cases h1 : dy > 0
  · simp [h1]
  · by_cases h2 : dx > 0
    · simp [h1, h2]
    · by_cases h3 : dy < 0
      · simp [h1, h2, h3]
      · by_cases h4 : dx < 0
        · simp [h1, h2, h3, h4]
        · exfalso
          apply h
          have hx0 : dx = 0 := by omega
          have hy0 : dy = 0 := by omega
          rw [hx0, hy0]

/-- `updWay` never removes a tile record. -/
theorem updWay_tileAt_isSome (l : Land) (c c' : Coord) (i : Nat) (k : WayKind)
    (pm : Plot → Bool) (ow : Bool) (h : (l.tileAt c').isSome = true) :
    ((updWay l c i k pm ow).tileAt c').isSome = true := by
  unfold updWay
  split
  · exact h
  · split
    · exact h
    · split
      · split
        · by_cases hc : c' = c
          · subst hc
            simp [Land.tileAt, tmGet_tmInsert_self]
          · simp only [Land.tileAt] at h ⊢
            rw [tmGet_tmInsert_ne _ _ _ _ hc]
            exact h
        · exact h
      · exact h

theorem writePathPair_zero (l : Land) (kind : WayKind) (pm : Plot → Bool)
    (ow : Bool) (a b : Coord) (h : csub b a = ((0 : Int), (0 : Int))) :
    writePathPair l kind pm ow a b = l := by
  unfold writePathPair
  rw [h]
  rfl

theorem writePathPair_keeps_tile (l : Land) (kind : WayKind) (pm : Plot → Bool)
    (ow : Bool) (a b : Coord) (h : csub b a ≠ ((0 : Int), (0 : Int))) :
    ((writePathPair l kind pm ow a b).tileAt a).isSome = true := by
  unfold writePathPair
  have hs : (dirIdx (csub b a)).isSome = true := dirIdx_ne_zero _ h
  cases hd : dirIdx (csub b a) with
  | none =>
    rw [hd] at hs
    exact absurd hs (by simp)
  | some idx =>
    apply updWay_tileAt_isSome
    apply updWay_tileAt_isSome
    by_cases hn : (l.tileAt a).isNone = true
    · rw [if_pos hn]
      simp [Land.tileAt_set_self]
    · rw [if_neg hn]
      cases hq : l.tileAt a with
      | none => exact absurd (by rw [hq]; rfl) hn
      | some t => simp

/-- C6 (counterexample): on a fresh land, `write_path` over the single
diagonal step `(0,0) → (1,1)` is NOT silently skipped: the `+y` branch of
the direction chain fires first, a placeholder (hazard) tile is created at
`(0,0)`, and a `Path` way marker is written into its slot 1. -/
theorem C6_diagonal_counterexample :
    ((demoLand.writePath [(0, 0), (1, 1)] WayKind.path (fun _ => true) false).tileAt
        (0, 0)).isSome = true ∧
    ((demoLand.writePath [(0, 0), (1, 1)] WayKind.path (fun _ => true) false).tileAt
        (0, 0)).bind (fun t => t.way 1) = some WayKind.path := by
  constructor
  · decide
  · decide

/-- C6 (amended): in each `windows(2)` step of `write_path`, only a ZERO
delta is silently skipped (the window leaves the land untouched); any
nonzero delta — diagonal and non-unit deltas included — is resolved to a
way index by the sign-priority chain `+y, +x, -y, -x` and processed,
ensuring a tile record exists at the window's first coordinate. -/
theorem C6_writePath_window (l : Land) (kind : WayKind) (permit : Plot → Bool)
    (ow : Bool) (a b : Coord) :
    (csub b a = ((0 : Int), (0 : Int)) → writePathPair l kind permit ow a b = l) ∧
    (csub b a ≠ ((0 : Int), (0 : Int)) →
      ((writePathPair l kind permit ow a b).tileAt a).isSome = true) :=
  ⟨writePathPair_zero l kind permit ow a b,
   writePathPair_keeps_tile l kind permit ow a b⟩

theorem C6_writePath_window_witness :
    writePathPair demoLand WayKind.path (fun _ => true) false (2, 3) (2, 3) = demoLand ∧
    ((writePathPair demoLand WayKind.path (fun _ => true) false (0, 0) (1, 1)).tileAt
        (0, 0)).isSome = true :=
  ⟨(C6_writePath_window demoLand WayKind.path (fun _ => true) false (2, 3) (2, 3)).1
      (by decide),
   (C6_writePath_window demoLand WayKind.path (fun _ => true) false (0, 0) (1, 1)).2
      (by decide)⟩

/-! ## Claim C7 — which tile `get_at_block` consults -/

/-- A land (sampler seed 0) with a towered dirt tile at cell `(0,0)` and a
towerless dirt tile at cell `(-1,0)`. -/
def demoLand7 : Land :=
  ⟨[((0, 0), ⟨1, [none, none, none, none], some Tower.wall⟩),
    ((-1, 0), mkTile 1)], [Plot.hazard, Plot.dirt], 0, 0⟩

theorem cadd_zero (c : Coord) : cadd c (0, 0) = c := by
  simp [cadd]

theorem cadd_zero' (c : Coord) : cadd c (0 : Coord) = c := by
  simp [cadd]

theorem neighbors9_getD4 (seed : Nat) (pos : Coord) :
    (neighbors9 seed pos).getD 4 (0, 0) = samplerCenter seed (posCell pos) := by
  simp [neighbors9, offsets9, cadd_zero, cadd_zero']

theorem wayScan_none (ns : List Coord) (pos : Coord) :
    wayScan ns none pos = none := rfl

theorem getAtBlock_tower_none (l : Land) (pos : Coord)
    (h : (l.tileAt (toTileC (homeCenter l pos))).bind (fun t => t.tower) = none) :
    (l.getAtBlock pos).tower = none := by
  unfold Land.getAtBlock
  simp only [neighbors9_getD4]
  simp only [homeCenter] at h
  rw [h]

theorem getAtBlock_way_of_none (l : Land) (pos : Coord)
    (h : l.tileAt (toTileC (homeCenter l pos)) = none) :
    (l.getAtBlock pos).way = none := by
  unfold Land.getAtBlock
  simp only [neighbors9_getD4]
  simp only [homeCenter] at h
  rw [h]
  exact wayScan_none _ _

/-- C7 (counterexample): `get_at_block` does NOT resolve tower information
from the tile at the closest jittered center's home coordinate.  At query
point `(0,19)` of `demoLand7`, the closest jittered center belongs to cell
`(-1,0)` — whose tile has no tower and supplies the returned plot — yet a
tower IS reported, taken from the tile of the query point's own grid cell
`(0,0)` (`neighbors[4]`). -/
theorem C7_counterexample :
    ((demoLand7.getAtBlock (0, 19)).tower.isSome = true) ∧
    (demoLand7.getAtBlock (0, 19)).plot = some Plot.dirt ∧
    toTileC (closestCenter demoLand7 (0, 19)) ≠ toTileC (homeCenter demoLand7 (0, 19)) ∧
    (demoLand7.tileAt (toTileC (closestCenter demoLand7 (0, 19)))).bind
      (fun t => t.tower) = none := by
  refine ⟨by decide, by decide, by decide, by decide⟩

/-- C7 (amended): `get_at_block` splits its lookups: the returned plot comes
from the tile at the CLOSEST jittered center's home coordinate, while tower
and way markers are resolved from the tile at the home coordinate of the
grid cell CONTAINING the query point (`neighbors[4]`), which can be a
different tile. -/
theorem C7_getAtBlock_sources (l : Land) (pos : Coord) :
    (l.getAtBlock pos).plot = l.plotAt (toTileC (closestCenter l pos)) ∧
    ((l.getAtBlock pos).tower.isSome = true →
      ((l.tileAt (toTileC (homeCenter l pos))).bind (fun t => t.tower)).isSome = true) ∧
    ((l.getAtBlock pos).way.isSome = true →
      (l.tileAt (toTileC (homeCenter l pos))).isSome = true) := by
  refine ⟨rfl, ?_, ?_⟩
  · intro htw
    by_contra hn
    have hnone : (l.tileAt (toTileC (homeCenter l pos))).bind (fun t => t.tower) = none := by
      cases hq : (l.tileAt (toTileC (homeCenter l pos))).bind (fun t => t.tower) with
      | none => rfl
      | some tw => rw [hq] at hn; exact absurd rfl hn
    rw [getAtBlock_tower_none l pos hnone] at htw
    exact absurd htw (by simp)
  · intro hw
    by_contra hn
    have hnone : l.tileAt (toTileC (homeCenter l pos)) = none := by
      cases hq : l.tileAt (toTileC (homeCenter l pos)) with
      | none => rfl
      | some t => rw [hq] at hn; exact absurd rfl hn
    rw [getAtBlock_way_of_none l pos hnone] at hw
    exact absurd hw (by simp)

theorem C7_getAtBlock_sources_witness :
    (demoLand7.getAtBlock (0, 19)).plot =
      demoLand7.plotAt (toTileC (closestCenter demoLand7 (0, 19))) ∧
    ((demoLand7.tileAt (toTileC (homeCenter demoLand7 (0, 19)))).bind
      (fun t => t.tower)).isSome = true :=
  ⟨(C7_getAtBlock_sources demoLand7 (0, 19)).1,
   (C7_getAtBlock_sources demoLand7 (0, 19)).2.1 (by decide)⟩

/-! ## Claim C5 — hazard designation -/

theorem markSet_subset (sim : Oracle) (origin : Coord) :
    ∀ (cells : List Coord) (rng : Rng) (c : Coord),
      c ∈ markSet sim origin cells rng → c ∈ cells := by
  intro cells
  induction cells with
  | nil =>
    intro rng c h
    simp [markSet] at h
  | cons e t ih =>
    intro rng c h
    simp only [markSet] at h
    split_ifs at h with hf hv
    · rcases List.mem_cons.mp h with rfl | hh
      · exact List.mem_cons_self _ _
      · exact List.mem_cons_of_mem _ (ih _ _ hh)
    · rcases List.mem_cons.mp h with rfl | hh
      · exact List.mem_cons_self _ _
      · exact List.mem_cons_of_mem _ (ih _ _ hh)
    · exact List.mem_cons_of_mem _ (ih _ _ h)

theorem designateStep_fail (sim : Oracle) (origin : Coord) (land : Land)
    (rng : Rng) (tile : Coord)
    (h : subFails sim (cadd origin (tile.1 * areaSize, tile.2 * areaSize)) = true) :
    designateStep sim origin (land, rng) tile = (land.set tile land.hazard, rng) := by
  simp only [designateStep]
  rw [if_pos h]

theorem designateStep_draw (sim : Oracle) (origin : Coord) (land : Land)
    (rng : Rng) (tile : Coord)
    (h : ¬subFails sim (cadd origin (tile.1 * areaSize, tile.2 * areaSize)) = true)
    (h2 : (genRange 0 16 rng).1 = 0) :
    designateStep sim origin (land, rng) tile =
      (land.set tile land.hazard, (genRange 0 16 rng).2) := by
  simp only [designateStep]
  rw [if_neg h, if_pos h2]

theorem designateStep_skip (sim : Oracle) (origin : Coord) (land : Land)
    (rng : Rng) (tile : Coord)
    (h : ¬subFails sim (cadd origin (tile.1 * areaSize, tile.2 * areaSize)) = true)
    (h2 : ¬(genRange 0 16 rng).1 = 0) :
    designateStep sim origin (land, rng) tile = (land, (genRange 0 16 rng).2) := by
  simp only [designateStep]
  rw [if_neg h, if_neg h2]

theorem markSet_cons_fail (sim : Oracle) (origin : Coord) (e : Coord)
    (t : List Coord) (rng : Rng)
    (h : subFails sim (cadd origin (e.1 * areaSize, e.2 * areaSize)) = true) :
    markSet sim origin (e :: t) rng = e :: markSet sim origin t rng := by
  simp only [markSet]
  rw [if_pos h]

theorem markSet_cons_draw (sim : Oracle) (origin : Coord) (e : Coord)
    (t : List Coord) (rng : Rng)
    (h : ¬subFails sim (cadd origin (e.1 * areaSize, e.2 * areaSize)) = true)
    (h2 : (genRange 0 16 rng).1 = 0) :
    markSet sim origin (e :: t) rng =
      e :: markSet sim origin t (genRange 0 16 rng).2 := by
  simp only [markSet]
  rw [if_neg h, if_pos h2]

theorem markSet_cons_skip (sim : Oracle) (origin : Coord) (e : Coord)
    (t : List Coord) (rng : Rng)
    (h : ¬subFails sim (cadd origin (e.1 * areaSize, e.2 * areaSize)) = true)
    (h2 : ¬(genRange 0 16 rng).1 = 0) :
    markSet sim origin (e :: t) rng = markSet sim origin t (genRange 0 16 rng).2 := by
  simp only [markSet]
  rw [if_neg h, if_neg h2]

/-- The designation walk, characterised: starting from a land with no tile
at any walked cell, the tile map after the walk holds exactly the hazard
placeholder at the cells of `markSet` (sub-point failure, or 1-in-16 draw
at the rng state the walk reaches the cell with) and is untouched
elsewhere. -/
theorem designate_fold_tileAt (sim : Oracle) (origin : Coord) :
    ∀ (cells : List Coord), cells.Nodup →
      ∀ (land : Land) (rng : Rng) (c : Coord),
        (∀ c' ∈ cells, land.tileAt c' = none) →
        ((cells.foldl (designateStep sim origin) (land, rng)).1).tileAt c =
          (if c ∈ markSet sim origin cells rng then some (mkTile land.hazard)
           else land.tileAt c) := by
  intro cells
  induction cells with
  | nil =>
    intro _ land rng c _
    simp [markSet]
  | cons e t ih =>
    intro hnd land rng c hfresh
    have het : e ∉ t := (List.nodup_cons.mp hnd).1
    have hndt : t.Nodup := (List.nodup_cons.mp hnd).2
    rw [List.foldl_cons]
    by_cases hf : subFails sim (cadd origin (e.1 * areaSize, e.2 * areaSize)) = true
    · -- sub-point failure: e is marked, rng untouched
      rw [designateStep_fail sim origin land rng e hf,
        markSet_cons_fail sim origin e t rng hf]
      rw [ih hndt (land.set e land.hazard) rng c
        (fun c' hc' => by
          rw [Land.tileAt_set_ne land e c' land.hazard (fun hh => het (hh ▸ hc'))]
          exact hfresh c' (by simp [hc']))]
      rw [Land.set_hazard]
      by_cases hc : c = e
      · subst hc
        have hnm : c ∉ markSet sim origin t rng :=
          fun hm => het (markSet_subset sim origin t rng c hm)
        rw [if_neg hnm, if_pos (by simp), Land.tileAt_set_self]
      · have hmm : (c ∈ e :: markSet sim origin t rng) ↔
            c ∈ markSet sim origin t rng := by
          simp [List.mem_cons, hc]
        by_cases hm : c ∈ markSet sim origin t rng
        · rw [if_pos hm, if_pos (hmm.mpr hm)]
        · rw [if_neg hm, if_neg (fun hh => hm (hmm.mp hh))]
          exact Land.tileAt_set_ne land e c land.hazard hc
    · by_cases hv : (genRange 0 16 rng).1 = 0
      · -- the 1-in-16 draw fires
        rw [designateStep_draw sim origin land rng e hf hv,
          markSet_cons_draw sim origin e t rng hf hv]
        rw [ih hndt (land.set e land.hazard) (genRange 0 16 rng).2 c
          (fun c' hc' => by
            rw [Land.tileAt_set_ne land e c' land.hazard (fun hh => het (hh ▸ hc'))]
            exact hfresh c' (by simp [hc']))]
        rw [Land.set_hazard]
        by_cases hc : c = e
        · subst hc
          have hnm : c ∉ markSet sim origin t (genRange 0 16 rng).2 :=
            fun hm => het (markSet_subset sim origin t _ c hm)
          rw [if_neg hnm, if_pos (by simp), Land.tileAt_set_self]
        · have hmm : (c ∈ e :: markSet sim origin t (genRange 0 16 rng).2) ↔
              c ∈ markSet sim origin t (genRange 0 16 rng).2 := by
            simp [List.mem_cons, hc]
          by_cases hm : c ∈ markSet sim origin t (genRange 0 16 rng).2
          · rw [if_pos hm, if_pos (hmm.mpr hm)]
          · rw [if_neg hm, if_neg (fun hh => hm (hmm.mp hh))]
            exact Land.tileAt_set_ne land e c land.hazard hc
      · -- neither: the cell stays untouched
        rw [designateStep_skip sim origin land rng e hf hv,
          markSet_cons_skip sim origin e t rng hf hv]
        exact ih hndt land (genRange 0 16 rng).2 c
          (fun c' hc' => hfresh c' (by simp [hc']))

/-- C5 (counterexample): `designate_from_world` samples SIXTEEN sub-points
per cell (`(0..4) × (0..4)`, a 4×4 grid at half-tile spacing), not four. -/
theorem C5_sixteen_subpoints : subOffsets.length = 16 ∧ subOffsets.length ≠ 4 := by
  constructor
  · decide
  · decide

/-! ## Pipeline invariants -/

/-- Arena integrity: the hazard id and every tile's plot id are live arena
indices. -/
def LandWF (l : Land) : Prop :=
  l.hazard < l.plots.length ∧ ∀ pr ∈ l.tiles, pr.2.plot < l.plots.length

/-- Crop discipline: a `Field` plot carries none of the two never-generated
crops. -/
def goodCrop : Plot → Prop
  | Plot.field _ _ c => c ≠ Crop.turnip ∧ c ≠ Crop.sunflower
  | _ => True

/-- Executable mirror of `goodCrop`. -/
def goodCropB : Plot → Bool
  | Plot.field _ _ c => !(decide (c = Crop.turnip) || decide (c = Crop.sunflower))
  | _ => true

theorem goodCropB_eq_true {pl : Plot} (h : goodCrop pl) : goodCropB pl = true := by
  cases pl <;> simp [goodCropB, goodCrop] at h ⊢
  exact h

/-- Every arena entry obeys the crop discipline. -/
def PlotsOK (l : Land) : Prop := ∀ pl ∈ l.plots, goodCrop pl

/-- The hazard designation of a cell, as the pipeline preserves it: the cell
holds the placeholder tile pointing at arena slot 0, which holds `Hazard`. -/
def HazAt (l : Land) (c : Coord) : Prop :=
  l.tileAt c = some (mkTile 0) ∧ l.plots.get? 0 = some Plot.hazard

theorem HazAt.plotAt {l : Land} {c : Coord} (h : HazAt l c) :
    l.plotAt c = some Plot.hazard := by
  simp only [Land.plotAt, h.1, mkTile, Option.some_bind]
  exact h.2

theorem LandWF_new (r : Rng) : LandWF (Land.new r).1 := by
  constructor
  · simp [Land.new]
  · intro pr hpr
    simp [Land.new] at hpr

theorem PlotsOK_new (r : Rng) : PlotsOK (Land.new r).1 := by
  intro pl hpl
  simp [Land.new] at hpl
  rw [hpl]
  trivial

theorem LandWF_set {l : Land} (c : Coord) (p : Nat) (h : LandWF l)
    (hp : p < l.plots.length) : LandWF (l.set c p) := by
  refine ⟨h.1, ?_⟩
  intro pr hpr
  simp only [Land.set, tmInsert, List.mem_cons] at hpr
  rcases hpr with rfl | hm
  · exact hp
  · exact h.2 pr hm

theorem PlotsOK_set {l : Land} (c : Coord) (p : Nat) (h : PlotsOK l) :
    PlotsOK (l.set c p) :=
  fun pl hpl => h pl hpl

theorem LandWF_newPlot {l : Land} (p : Plot) (h : LandWF l) :
    LandWF (l.newPlot p).2 := by
  constructor
  · have := h.1
    simp only [Land.newPlot, List.length_append, List.length_cons, List.length_nil]
    omega
  · intro pr hpr
    have := h.2 pr hpr
    simp only [Land.newPlot, List.length_append, List.length_cons, List.length_nil]
    omega

theorem PlotsOK_newPlot {l : Land} {p : Plot} (h : PlotsOK l) (hp : goodCrop p) :
    PlotsOK (l.newPlot p).2 := by
  intro pl hpl
  simp only [Land.newPlot, List.mem_append, List.mem_singleton] at hpl
  rcases hpl with hm | rfl
  · exact h pl hm
  · exact hp

theorem HazAt_set_ne {l : Land} {c : Coord} (h : HazAt l c) (pos : Coord)
    (p : Nat) (hne : c ≠ pos) : HazAt (l.set pos p) c := by
  refine ⟨?_, h.2⟩
  rw [Land.tileAt_set_ne l pos c p hne]
  exact h.1

theorem HazAt_newPlot {l : Land} {c : Coord} (h : HazAt l c) (p : Plot) :
    HazAt (l.newPlot p).2 c := by
  have h0 : 0 < l.plots.length := by
    by_contra hh
    have hnil : l.plots = [] := List.eq_nil_of_length_eq_zero (by omega)
    have := h.2
    rw [hnil] at this
    simp at this
  exact ⟨h.1, by rw [Land.newPlot_get_lt l p 0 h0]; exact h.2⟩

/-- Fold invariance with membership information about the elements. -/
theorem foldl_inv_mem {σ : Type _} {α : Type _} (P : σ → Prop) (f : σ → α → σ) :
    ∀ (l : List α), (∀ s a, a ∈ l → P s → P (f s a)) →
      ∀ s, P s → P (l.foldl f s) := by
  intro l
  induction l with
  | nil =>
    intro _ s h
    exact h
  | cons a t ih =>
    intro hf s h
    exact ih (fun s' a' ha' hs' => hf s' a' (by simp [ha']) hs') _
      (hf s a (by simp) h)

theorem findTileNear_found {fuel : Nat} {l : Land} {origin : Coord}
    {p : Option Plot → Bool} {c : Coord}
    (h : findTileNear fuel l origin p = some c) : p (l.plotAt c) = true := by
  unfold findTileNear at h
  simpa using List.find?_some h

theorem cropOfInt_ok (v : Int) (h0 : 0 ≤ v) (h8 : v < 8) :
    cropOfInt v ≠ Crop.turnip ∧ cropOfInt v ≠ Crop.sunflower := by
  interval_cases v <;> simp [cropOfInt]

/-! ### Folds of `Land.set` -/

theorem setFold_LandWF (tiles : List Coord) (pid : Nat) :
    ∀ {l : Land}, LandWF l → pid < l.plots.length →
      LandWF (tiles.foldl (fun acc pos => acc.set pos pid) l) := by
  induction tiles with
  | nil =>
    intro l h _
    exact h
  | cons a t ih =>
    intro l h hp
    rw [List.foldl_cons]
    exact ih (LandWF_set a pid h hp) hp

theorem setFold_PlotsOK (tiles : List Coord) (pid : Nat) :
    ∀ {l : Land}, PlotsOK l →
      PlotsOK (tiles.foldl (fun acc pos => acc.set pos pid) l) := by
  induction tiles with
  | nil =>
    intro l h
    exact h
  | cons a t ih =>
    intro l h
    rw [List.foldl_cons]
    exact ih (PlotsOK_set a pid h)

theorem setFold_HazAt (tiles : List Coord) (pid : Nat) {c : Coord} :
    ∀ {l : Land}, HazAt l c → c ∉ tiles →
      HazAt (tiles.foldl (fun acc pos => acc.set pos pid) l) c := by
  induction tiles with
  | nil =>
    intro l h _
    exact h
  | cons a t ih =>
    intro l h hnm
    rw [List.foldl_cons]
    exact ih (HazAt_set_ne h a pid (fun hh => hnm (by simp [hh])))
      (fun hh => hnm (by simp [hh]))

/-! ### `place_field` invariants -/

theorem placeField_LandWF (land : Land) (f : Nat) (o : Coord) (r : Rng)
    (h : LandWF land) : LandWF (placeField land f o r).1 := by
  unfold placeField
  cases hf : findTileNear searchFuel land o (fun p => p.isNone) with
  | none => exact h
  | some center =>
    apply setFold_LandWF _ _ (LandWF_newPlot _ h)
    simp [Land.newPlot]

theorem placeField_PlotsOK (land : Land) (f : Nat) (o : Coord) (r : Rng)
    (h : PlotsOK land) : PlotsOK (placeField land f o r).1 := by
  unfold placeField
  cases hf : findTileNear searchFuel land o (fun p => p.isNone) with
  | none => exact h
  | some center =>
    apply setFold_PlotsOK
    apply PlotsOK_newPlot h
    have hv := genRange_mem 0 8 (genNat r).2 (by norm_num)
    exact cropOfInt_ok _ hv.1 hv.2

theorem placeField_HazAt (land : Land) (f : Nat) (o : Coord) (r : Rng)
    {c : Coord} (h : HazAt land c) : HazAt (placeField land f o r).1 c := by
  unfold placeField
  cases hf : findTileNear searchFuel land o (fun p => p.isNone) with
  | none => exact h
  | some center =>
    apply setFold_HazAt _ _ (HazAt_newPlot h _)
    intro hcmem
    unfold Land.growFrom at hcmem
    rcases growLoop_pred _ (fun p => p.isNone) _ center growFuel [center] []
      (fun y hy => by
        simp only [List.nil_append, List.mem_singleton] at hy
        exact Or.inl hy) c hcmem with rfl | hnone
    · have hfound := findTileNear_found hf
      rw [h.plotAt] at hfound
      simp at hfound
    · rw [(HazAt_newPlot h _).plotAt] at hnone
      simp at hnone

/-! ### Farm stage invariants -/

theorem fieldStep_structures (fid : Nat) (base : Coord) (st : Settlement × Rng)
    (n : Nat) : ((fieldStep fid base st n).1).structures = st.1.structures := rfl

theorem fieldStep_farms (fid : Nat) (base : Coord) (st : Settlement × Rng)
    (n : Nat) : ((fieldStep fid base st n).1).farms = st.1.farms := rfl

theorem fieldStep_town (fid : Nat) (base : Coord) (st : Settlement × Rng)
    (n : Nat) : ((fieldStep fid base st n).1).town = st.1.town := rfl

theorem farmStep_structures (st : Settlement × Rng) (n : Nat) :
    ((farmStep st n).1).structures = st.1.structures := by
  unfold farmStep
  cases hf : findTileNear searchFuel st.1.land (0, 0) (fun p => p.isNone) with
  | none => rfl
  | some base =>
    exact foldl_inv (fun st2 : Settlement × Rng => st2.1.structures = st.1.structures)
      (fieldStep st.1.farms.length base)
      (fun s a hs => (fieldStep_structures _ _ s a).trans hs)
      (List.range 5) _ rfl

theorem farmStep_town (st : Settlement × Rng) (n : Nat) :
    ((farmStep st n).1).town = st.1.town := by
  unfold farmStep
  cases hf : findTileNear searchFuel st.1.land (0, 0) (fun p => p.isNone) with
  | none => rfl
  | some base =>
    exact foldl_inv (fun st2 : Settlement × Rng => st2.1.town = st.1.town)
      (fieldStep st.1.farms.length base)
      (fun s a hs => (fieldStep_town _ _ s a).trans hs)
      (List.range 5) _ rfl

theorem farmStep_farms_nonempty (st : Settlement × Rng) (n : Nat)
    (h : st.1.farms ≠ []) : ((farmStep st n).1).farms ≠ [] := by
  unfold farmStep
  cases hf : findTileNear searchFuel st.1.land (0, 0) (fun p => p.isNone) with
  | none => exact h
  | some base =>
    have := foldl_inv
      (fun st2 : Settlement × Rng => st2.1.farms = st.1.farms ++ [base])
      (fieldStep st.1.farms.length base)
      (fun s a hs => (fieldStep_farms _ _ s a).trans hs)
      (List.range 5) ({ st.1 with farms := st.1.farms ++ [base] }, st.2) rfl
    rw [this]
    simp

theorem farmStep_farms_of_found (st : Settlement × Rng) (n : Nat)
    (h : (findTileNear searchFuel st.1.land (0, 0) (fun p => p.isNone)).isSome
      = true) : ((farmStep st n).1).farms ≠ [] := by
  unfold farmStep
  cases hf : findTileNear searchFuel st.1.land (0, 0) (fun p => p.isNone) with
  | none =>
    rw [hf] at h
    exact absurd h (by simp)
  | some base =>
    have := foldl_inv
      (fun st2 : Settlement × Rng => st2.1.farms = st.1.farms ++ [base])
      (fieldStep st.1.farms.length base)
      (fun s a hs => (fieldStep_farms _ _ s a).trans hs)
      (List.range 5) ({ st.1 with farms := st.1.farms ++ [base] }, st.2) rfl
    rw [this]
    simp

theorem farmStep_LandWF (st : Settlement × Rng) (n : Nat)
    (h : LandWF st.1.land) : LandWF ((farmStep st n).1).land := by
  unfold farmStep
  cases hf : findTileNear searchFuel st.1.land (0, 0) (fun p => p.isNone) with
  | none => exact h
  | some base =>
    exact foldl_inv (fun st2 : Settlement × Rng => LandWF st2.1.land)
      (fieldStep st.1.farms.length base)
      (fun s a hs => placeField_LandWF _ _ _ _ hs)
      (List.range 5) _ h

theorem farmStep_PlotsOK (st : Settlement × Rng) (n : Nat)
    (h : PlotsOK st.1.land) : PlotsOK ((farmStep st n).1).land := by
  unfold farmStep
  cases hf : findTileNear searchFuel st.1.land (0, 0) (fun p => p.isNone) with
  | none => exact h
  | some base =>
    exact foldl_inv (fun st2 : Settlement × Rng => PlotsOK st2.1.land)
      (fieldStep st.1.farms.length base)
      (fun s a hs => placeField_PlotsOK _ _ _ _ hs)
      (List.range 5) _ h

theorem farmStep_HazAt (st : Settlement × Rng) (n : Nat) {c : Coord}
    (h : HazAt st.1.land c) : HazAt ((farmStep st n).1).land c := by
  unfold farmStep
  cases hf : findTileNear searchFuel st.1.land (0, 0) (fun p => p.isNone) with
  | none => exact h
  | some base =>
    exact foldl_inv (fun st2 : Settlement × Rng => HazAt st2.1.land c)
      (fieldStep st.1.farms.length base)
      (fun s a hs => placeField_HazAt _ _ _ _ hs)
      (List.range 5) _ h

theorem placeFarms_structures (s : Settlement) (rng : Rng) :
    ((placeFarms s rng).1).structures = s.structures :=
  foldl_inv (fun st : Settlement × Rng => st.1.structures = s.structures)
    farmStep (fun st a hs => (farmStep_structures st a).trans hs)
    (List.range 6) _ rfl

theorem placeFarms_town (s : Settlement) (rng : Rng) :
    ((placeFarms s rng).1).town = s.town :=
  foldl_inv (fun st : Settlement × Rng => st.1.town = s.town)
    farmStep (fun st a hs => (farmStep_town st a).trans hs)
    (List.range 6) _ rfl

theorem placeFarms_LandWF (s : Settlement) (rng : Rng) (h : LandWF s.land) :
    LandWF ((placeFarms s rng).1).land :=
  foldl_inv (fun st : Settlement × Rng => LandWF st.1.land)
    farmStep (fun st a hs => farmStep_LandWF st a hs) (List.range 6) _ h

theorem placeFarms_PlotsOK (s : Settlement) (rng : Rng) (h : PlotsOK s.land) :
    PlotsOK ((placeFarms s rng).1).land :=
  foldl_inv (fun st : Settlement × Rng => PlotsOK st.1.land)
    farmStep (fun st a hs => farmStep_PlotsOK st a hs) (List.range 6) _ h

theorem placeFarms_HazAt (s : Settlement) (rng : Rng) {c : Coord}
    (h : HazAt s.land c) : HazAt ((placeFarms s rng).1).land c :=
  foldl_inv (fun st : Settlement × Rng => HazAt st.1.land c)
    farmStep (fun st a hs => farmStep_HazAt st a hs) (List.range 6) _ h

theorem placeFarms_nonempty (s : Settlement) (rng : Rng)
    (h : (findTileNear searchFuel s.land (0, 0) (fun p => p.isNone)).isSome
      = true) : ((placeFarms s rng).1).farms ≠ [] := by
  unfold placeFarms
  rw [show List.range 6 = 0 :: [1, 2, 3, 4, 5] from rfl, List.foldl_cons]
  exact foldl_inv (fun st : Settlement × Rng => st.1.farms ≠ [])
    farmStep (fun st a hs => farmStep_farms_nonempty st a hs)
    [1, 2, 3, 4, 5] _ (farmStep_farms_of_found (s, rng) 0 h)

/-! ### Town stage invariants -/

theorem districtCellStep_plots (pid : Nat) (x : Int) (l2 : Land) (y : Int) :
    (districtCellStep pid x l2 y).plots = l2.plots := by
  unfold districtCellStep
  split <;> rfl

theorem districtCellStep_LandWF (pid : Nat) (x : Int) {l2 : Land} (y : Int)
    (h : LandWF l2) (hp : pid < l2.plots.length) :
    LandWF (districtCellStep pid x l2 y) := by
  unfold districtCellStep
  split
  · exact h
  · exact LandWF_set _ _ h hp

theorem districtCellStep_PlotsOK (pid : Nat) (x : Int) {l2 : Land} (y : Int)
    (h : PlotsOK l2) : PlotsOK (districtCellStep pid x l2 y) := by
  unfold districtCellStep
  split
  · exact h
  · exact PlotsOK_set _ _ h

theorem districtCellStep_HazAt (pid : Nat) (x : Int) {l2 : Land} {c : Coord}
    (y : Int) (h : HazAt l2 c) : HazAt (districtCellStep pid x l2 y) c := by
  unfold districtCellStep
  split
  · exact h
  · rename_i hg
    refine HazAt_set_ne h (x, y) pid ?_
    intro hc
    apply hg
    rw [← hc]
    exact h.plotAt

theorem districtColStep_plots (pid : Nat) (lo hi : Int) (l : Land) (x : Int) :
    (districtColStep pid lo hi l x).plots = l.plots := by
  unfold districtColStep
  exact foldl_inv (fun l' : Land => l'.plots = l.plots) (districtCellStep pid x)
    (fun s a hs => (districtCellStep_plots pid x s a).trans hs) _ _ rfl

theorem districtColStep_LandWF (pid : Nat) (lo hi : Int) {l : Land} (x : Int)
    (h : LandWF l) (hp : pid < l.plots.length) :
    LandWF (districtColStep pid lo hi l x) := by
  unfold districtColStep
  have := foldl_inv (fun l' : Land => LandWF l' ∧ l'.plots = l.plots)
    (districtCellStep pid x)
    (fun s a hs => ⟨districtCellStep_LandWF pid x a hs.1 (by rw [hs.2]; exact hp),
      (districtCellStep_plots pid x s a).trans hs.2⟩)
    (intRange lo hi) l ⟨h, rfl⟩
  exact this.1

theorem districtColStep_PlotsOK (pid : Nat) (lo hi : Int) {l : Land} (x : Int)
    (h : PlotsOK l) : PlotsOK (districtColStep pid lo hi l x) := by
  unfold districtColStep
  exact foldl_inv (fun l' : Land => PlotsOK l') (districtCellStep pid x)
    (fun s a hs => districtCellStep_PlotsOK pid x a hs) _ _ h

theorem districtColStep_HazAt (pid : Nat) (lo hi : Int) {l : Land} {c : Coord}
    (x : Int) (h : HazAt l c) : HazAt (districtColStep pid lo hi l x) c := by
  unfold districtColStep
  exact foldl_inv (fun l' : Land => HazAt l' c) (districtCellStep pid x)
    (fun s a hs => districtCellStep_HazAt pid x a hs) _ _ h

theorem applyDistrict_LandWF (idx : Nat) (d : District) {l : Land}
    (h : LandWF l) : LandWF (applyDistrict l idx d) := by
  unfold applyDistrict
  have hp : (l.newPlot (Plot.town (some idx))).1 <
      (l.newPlot (Plot.town (some idx))).2.plots.length := by
    simp [Land.newPlot]
  have := foldl_inv
    (fun l' : Land => LandWF l' ∧
      l'.plots = (l.newPlot (Plot.town (some idx))).2.plots)
    (districtColStep (l.newPlot (Plot.town (some idx))).1 d.aabr.min.2 d.aabr.max.2)
    (fun s a hs => ⟨districtColStep_LandWF _ _ _ a hs.1 (by rw [hs.2]; exact hp),
      (districtColStep_plots _ _ _ s a).trans hs.2⟩)
    (intRange d.aabr.min.1 d.aabr.max.1) _ ⟨LandWF_newPlot _ h, rfl⟩
  exact this.1

theorem applyDistrict_PlotsOK (idx : Nat) (d : District) {l : Land}
    (h : PlotsOK l) : PlotsOK (applyDistrict l idx d) := by
  unfold applyDistrict
  exact foldl_inv (fun l' : Land => PlotsOK l')
    (districtColStep (l.newPlot (Plot.town (some idx))).1 d.aabr.min.2 d.aabr.max.2)
    (fun s a hs => districtColStep_PlotsOK _ _ _ a hs)
    (intRange d.aabr.min.1 d.aabr.max.1) _
    (PlotsOK_newPlot h trivial)

theorem applyDistrict_HazAt (idx : Nat) (d : District) {l : Land} {c : Coord}
    (h : HazAt l c) : HazAt (applyDistrict l idx d) c := by
  unfold applyDistrict
  exact foldl_inv (fun l' : Land => HazAt l' c)
    (districtColStep (l.newPlot (Plot.town (some idx))).1 d.aabr.min.2 d.aabr.max.2)
    (fun s a hs => districtColStep_HazAt _ _ _ a hs)
    (intRange d.aabr.min.1 d.aabr.max.1) _
    (HazAt_newPlot h _)

theorem applyDistricts_LandWF (tw : Town) {l : Land} (h : LandWF l) :
    LandWF (applyDistricts tw l) := by
  unfold applyDistricts
  exact foldl_inv (fun l' : Land => LandWF l') _
    (fun s a hs => applyDistrict_LandWF a _ hs) _ _ h

theorem applyDistricts_PlotsOK (tw : Town) {l : Land} (h : PlotsOK l) :
    PlotsOK (applyDistricts tw l) := by
  unfold applyDistricts
  exact foldl_inv (fun l' : Land => PlotsOK l') _
    (fun s a hs => applyDistrict_PlotsOK a _ hs) _ _ h

theorem applyDistricts_HazAt (tw : Town) {l : Land} {c : Coord}
    (h : HazAt l c) : HazAt (applyDistricts tw l) c := by
  unfold applyDistricts
  exact foldl_inv (fun l' : Land => HazAt l' c) _
    (fun s a hs => applyDistrict_HazAt a _ hs) _ _ h

theorem townStep_structures (st : Settlement × Rng × Coord) (i : Nat) :
    ((townStep st i).1).structures = st.1.structures := by
  unfold townStep
  split
  · split
    · rfl
    · rfl
  · rfl

theorem townStep_farms (st : Settlement × Rng × Coord) (i : Nat) :
    ((townStep st i).1).farms = st.1.farms := by
  unfold townStep
  split
  · split
    · rfl
    · rfl
  · rfl

theorem townStep_LandWF (st : Settlement × Rng × Coord) (i : Nat)
    (h : LandWF st.1.land) : LandWF ((townStep st i).1).land := by
  unfold townStep
  split
  · split
    · exact applyDistricts_LandWF _ h
    · exact h
  · exact h

theorem townStep_PlotsOK (st : Settlement × Rng × Coord) (i : Nat)
    (h : PlotsOK st.1.land) : PlotsOK ((townStep st i).1).land := by
  unfold townStep
  split
  · split
    · exact applyDistricts_PlotsOK _ h
    · exact h
  · exact h

theorem townStep_HazAt (st : Settlement × Rng × Coord) (i : Nat) {c : Coord}
    (h : HazAt st.1.land c) : HazAt ((townStep st i).1).land c := by
  unfold townStep
  split
  · split
    · exact applyDistricts_HazAt _ h
    · exact h
  · exact h

theorem placeTown_structures (s : Settlement) (rng : Rng) :
    ((placeTown s rng).1).structures = s.structures := by
  unfold placeTown
  exact foldl_inv
    (fun st : Settlement × Rng × Coord => st.1.structures = s.structures)
    townStep (fun st a hs => (townStep_structures st a).trans hs)
    (List.range 3) _ rfl

theorem placeTown_farms (s : Settlement) (rng : Rng) :
    ((placeTown s rng).1).farms = s.farms := by
  unfold placeTown
  exact foldl_inv
    (fun st : Settlement × Rng × Coord => st.1.farms = s.farms)
    townStep (fun st a hs => (townStep_farms st a).trans hs)
    (List.range 3) _ rfl

theorem placeTown_LandWF (s : Settlement) (rng : Rng) (h : LandWF s.land) :
    LandWF ((placeTown s rng).1).land := by
  unfold placeTown
  exact foldl_inv (fun st : Settlement × Rng × Coord => LandWF st.1.land)
    townStep (fun st a hs => townStep_LandWF st a hs) (List.range 3) _ h

theorem placeTown_PlotsOK (s : Settlement) (rng : Rng) (h : PlotsOK s.land) :
    PlotsOK ((placeTown s rng).1).land := by
  unfold placeTown
  exact foldl_inv (fun st : Settlement × Rng × Coord => PlotsOK st.1.land)
    townStep (fun st a hs => townStep_PlotsOK st a hs) (List.range 3) _ h

theorem placeTown_HazAt (s : Settlement) (rng : Rng) {c : Coord}
    (h : HazAt s.land c) : HazAt ((placeTown s rng).1).land c := by
  unfold placeTown
  exact foldl_inv (fun st : Settlement × Rng × Coord => HazAt st.1.land c)
    townStep (fun st a hs => townStep_HazAt st a hs) (List.range 3) _ h

/-! ### Building stage invariants -/

/-- Structures of the list are pairwise non-overlapping in 2D. -/
def PairwiseOK (ss : List Structure) : Prop :=
  ss.Pairwise (fun a b => collides a.bounds2d b.bounds2d = false)

theorem tryPlaceAttempts_land (sim : Option Oracle) (tc tile : Coord) (i : Nat) :
    ∀ (n : Nat) (st : Settlement × Rng),
      ((tryPlaceAttempts sim tc tile i n st).1).land = st.1.land := by
  intro n
  induction n with
  | zero =>
    intro st
    rfl
  | succ k ih =>
    intro st
    simp only [tryPlaceAttempts]
    split
    · exact ih _
    · split
      · split
        · exact ih _
        · rfl
      · exact ih _

theorem tryPlaceAttempts_farms (sim : Option Oracle) (tc tile : Coord) (i : Nat) :
    ∀ (n : Nat) (st : Settlement × Rng),
      ((tryPlaceAttempts sim tc tile i n st).1).farms = st.1.farms := by
  intro n
  induction n with
  | zero =>
    intro st
    rfl
  | succ k ih =>
    intro st
    simp only [tryPlaceAttempts]
    split
    · exact ih _
    · split
      · split
        · exact ih _
        · rfl
      · exact ih _

theorem push_pairwise {ss : List Structure} {st : Structure}
    (h : PairwiseOK ss)
    (hno : ss.any (fun s2 => collides s2.bounds2d st.bounds2d) = false) :
    PairwiseOK (ss ++ [st]) := by
  rw [PairwiseOK, List.pairwise_append]
  refine ⟨h, List.pairwise_singleton _ _, ?_⟩
  intro a ha b2 hb
  rw [List.mem_singleton] at hb
  rw [hb]
  have hne := List.any_eq_false.mp hno a ha
  cases hcq : collides a.bounds2d st.bounds2d with
  | false => rfl
  | true => exact absurd hcq hne

theorem tryPlaceAttempts_pairwise (sim : Option Oracle) (tc tile : Coord)
    (i : Nat) :
    ∀ (n : Nat) (st : Settlement × Rng), PairwiseOK st.1.structures →
      PairwiseOK ((tryPlaceAttempts sim tc tile i n st).1).structures := by
  intro n
  induction n with
  | zero =>
    intro st h
    exact h
  | succ k ih =>
    intro st h
    simp only [tryPlaceAttempts]
    split
    · exact ih _ h
    · split
      · split
        · exact ih _ h
        · rename_i hno
          exact push_pairwise h (Bool.eq_false_iff.mpr hno)
      · exact ih _ h

theorem placeBuildingsTile_land (sim : Option Oracle) (tc : Coord)
    (st : Settlement × Rng) (tile : Coord) :
    ((placeBuildingsTile sim tc st tile).1).land = st.1.land := by
  unfold placeBuildingsTile
  exact foldl_inv (fun st2 : Settlement × Rng => st2.1.land = st.1.land)
    (fun st2 i => tryPlaceAttempts sim tc tile i 25 st2)
    (fun s a hs => (tryPlaceAttempts_land sim tc tile a 25 s).trans hs)
    _ _ rfl

theorem placeBuildingsTile_farms (sim : Option Oracle) (tc : Coord)
    (st : Settlement × Rng) (tile : Coord) :
    ((placeBuildingsTile sim tc st tile).1).farms = st.1.farms := by
  unfold placeBuildingsTile
  exact foldl_inv (fun st2 : Settlement × Rng => st2.1.farms = st.1.farms)
    (fun st2 i => tryPlaceAttempts sim tc tile i 25 st2)
    (fun s a hs => (tryPlaceAttempts_farms sim tc tile a 25 s).trans hs)
    _ _ rfl

theorem placeBuildingsTile_pairwise (sim : Option Oracle) (tc : Coord)
    (st : Settlement × Rng) (tile : Coord) (h : PairwiseOK st.1.structures) :
    PairwiseOK ((placeBuildingsTile sim tc st tile).1).structures := by
  unfold placeBuildingsTile
  exact foldl_inv (fun st2 : Settlement × Rng => PairwiseOK st2.1.structures)
    (fun st2 i => tryPlaceAttempts sim tc tile i 25 st2)
    (fun s a hs => tryPlaceAttempts_pairwise sim tc tile a 25 s hs)
    _ _ h

theorem pbStep_land (sim : Option Oracle) (tc : Coord) (st : Settlement × Rng)
    (offs : Coord) : ((pbStep sim tc st offs).1).land = st.1.land := by
  unfold pbStep
  exact placeBuildingsTile_land sim tc st (cadd tc offs)

theorem pbStep_farms (sim : Option Oracle) (tc : Coord) (st : Settlement × Rng)
    (offs : Coord) : ((pbStep sim tc st offs).1).farms = st.1.farms := by
  unfold pbStep
  exact placeBuildingsTile_farms sim tc st (cadd tc offs)

theorem pbStep_pairwise (sim : Option Oracle) (tc : Coord) (st : Settlement × Rng)
    (offs : Coord) (h : PairwiseOK st.1.structures) :
    PairwiseOK ((pbStep sim tc st offs).1).structures := by
  unfold pbStep
  exact placeBuildingsTile_pairwise sim tc st (cadd tc offs) h

theorem placeBuildings_land (sim : Option Oracle) (s : Settlement) (rng : Rng) :
    ((placeBuildings sim s rng).1).land = s.land := by
  unfold placeBuildings
  split
  · rfl
  · rename_i town _
    refine foldl_inv (fun st : Settlement × Rng => st.1.land = s.land)
      (pbStep sim town.baseTile) ?_ _ _ rfl
    intro st a hs
    show (pbStep sim town.baseTile st a).1.land = s.land
    rw [pbStep_land]
    exact hs

theorem placeBuildings_farms (sim : Option Oracle) (s : Settlement) (rng : Rng) :
    ((placeBuildings sim s rng).1).farms = s.farms := by
  unfold placeBuildings
  split
  · rfl
  · rename_i town _
    refine foldl_inv (fun st : Settlement × Rng => st.1.farms = s.farms)
      (pbStep sim town.baseTile) ?_ _ _ rfl
    intro st a hs
    show (pbStep sim town.baseTile st a).1.farms = s.farms
    rw [pbStep_farms]
    exact hs

theorem placeBuildings_pairwise (sim : Option Oracle) (s : Settlement)
    (rng : Rng) (h : PairwiseOK s.structures) :
    PairwiseOK ((placeBuildings sim s rng).1).structures := by
  unfold placeBuildings
  split
  · exact h
  · rename_i town _
    refine foldl_inv (fun st : Settlement × Rng => PairwiseOK st.1.structures)
      (pbStep sim town.baseTile) ?_ _ _ h
    intro st a hs
    show PairwiseOK (pbStep sim town.baseTile st a).1.structures
    exact pbStep_pairwise sim town.baseTile st a hs

/-! ### Designation stage invariants -/

theorem designateStep_plots (sim : Oracle) (origin : Coord) (st : Land × Rng)
    (tile : Coord) : ((designateStep sim origin st tile).1).plots = st.1.plots := by
  simp only [designateStep]
  split
  · rfl
  · split
    · rfl
    · rfl

theorem designateStep_LandWF (sim : Oracle) (origin : Coord) (st : Land × Rng)
    (tile : Coord) (h : LandWF st.1) :
    LandWF ((designateStep sim origin st tile).1) := by
  simp only [designateStep]
  split
  · exact LandWF_set _ _ h h.1
  · split
    · exact LandWF_set _ _ h h.1
    · exact h

theorem designateStep_PlotsOK (sim : Oracle) (origin : Coord) (st : Land × Rng)
    (tile : Coord) (h : PlotsOK st.1) :
    PlotsOK ((designateStep sim origin st tile).1) := by
  simp only [designateStep]
  split
  · exact PlotsOK_set _ _ h
  · split
    · exact PlotsOK_set _ _ h
    · exact h

theorem designate_plots (sim : Oracle) (origin : Coord) (radius : Nat)
    (st : Land × Rng) : ((designate sim origin radius st).1).plots = st.1.plots := by
  unfold designate
  exact foldl_inv (fun st' : Land × Rng => st'.1.plots = st.1.plots)
    (designateStep sim origin)
    (fun s a hs => (designateStep_plots sim origin s a).trans hs) _ _ rfl

theorem designate_LandWF (sim : Oracle) (origin : Coord) (radius : Nat)
    (st : Land × Rng) (h : LandWF st.1) :
    LandWF ((designate sim origin radius st).1) := by
  unfold designate
  exact foldl_inv (fun st' : Land × Rng => LandWF st'.1)
    (designateStep sim origin)
    (fun s a hs => designateStep_LandWF sim origin s a hs) _ _ h

theorem designate_PlotsOK (sim : Oracle) (origin : Coord) (radius : Nat)
    (st : Land × Rng) (h : PlotsOK st.1) :
    PlotsOK ((designate sim origin radius st).1) := by
  unfold designate
  exact foldl_inv (fun st' : Land × Rng => PlotsOK st'.1)
    (designateStep sim origin)
    (fun s a hs => designateStep_PlotsOK sim origin s a hs) _ _ h

/-! ### Base and designated state -/

theorem genBase_structures (wpos : Coord) (rng : Rng) :
    (genBase wpos rng).1.structures = [] := rfl

theorem genBase_farms (wpos : Coord) (rng : Rng) :
    (genBase wpos rng).1.farms = [] := rfl

theorem genBase_land (wpos : Coord) (rng : Rng) :
    (genBase wpos rng).1.land = ⟨[], [Plot.hazard], (genNat (genNat (genNat rng).2).2).1, 0⟩ := rfl

theorem genDesignated_structures (wpos : Coord) (sim : Option Oracle)
    (rng : Rng) : (genDesignated wpos sim rng).1.structures = [] := by
  unfold genDesignated
  cases sim <;> rfl

theorem LandWF_fresh (sseed : Nat) :
    LandWF ⟨[], [Plot.hazard], sseed, 0⟩ := by
  constructor
  · simp
  · intro pr hpr
    simp at hpr

theorem PlotsOK_fresh (sseed : Nat) :
    PlotsOK (⟨[], [Plot.hazard], sseed, 0⟩ : Land) := by
  intro pl hpl
  simp at hpl
  rw [hpl]
  trivial

theorem genBase_LandWF (wpos : Coord) (rng : Rng) :
    LandWF (genBase wpos rng).1.land := by
  rw [genBase_land]
  exact LandWF_fresh _

theorem genBase_PlotsOK (wpos : Coord) (rng : Rng) :
    PlotsOK (genBase wpos rng).1.land := by
  rw [genBase_land]
  exact PlotsOK_fresh _

theorem genDesignated_LandWF (wpos : Coord) (sim : Option Oracle) (rng : Rng) :
    LandWF (genDesignated wpos sim rng).1.land := by
  unfold genDesignated
  cases sim with
  | none => exact genBase_LandWF wpos rng
  | some o =>
    show LandWF (designate o wpos tileRadius
      ((genBase wpos rng).1.land, (genBase wpos rng).2)).1
    exact designate_LandWF o wpos tileRadius
      ((genBase wpos rng).1.land, (genBase wpos rng).2) (genBase_LandWF wpos rng)

theorem genDesignated_PlotsOK (wpos : Coord) (sim : Option Oracle) (rng : Rng) :
    PlotsOK (genDesignated wpos sim rng).1.land := by
  unfold genDesignated
  cases sim with
  | none => exact genBase_PlotsOK wpos rng
  | some o =>
    show PlotsOK (designate o wpos tileRadius
      ((genBase wpos rng).1.land, (genBase wpos rng).2)).1
    exact designate_PlotsOK o wpos tileRadius
      ((genBase wpos rng).1.land, (genBase wpos rng).2) (genBase_PlotsOK wpos rng)

/-- C5 (amended): over the spiral walk of every cell with Chebyshev norm
below the tile radius, starting from the fresh land `Land::new` produced, a
cell ends up holding the hazard placeholder tile if and only if it is in
`markSet` — i.e. some of its sixteen sampled sub-points lands in a chunk
rejected by `can_host_settlement`, or (failing that) the cell's 1-in-16
draw at the rng state the walk reaches it with fires; all other cells stay
untiled. -/
theorem C5_designate_characterization (sim : Oracle) (origin : Coord)
    (radius sseed : Nat) (rng : Rng) (c : Coord) :
    ((designate sim origin radius (⟨[], [Plot.hazard], sseed, 0⟩, rng)).1).tileAt c =
      (if c ∈ markSet sim origin (spiralCells radius) rng then some (mkTile 0)
       else none) := by
  have := designate_fold_tileAt sim origin (spiralCells radius)
    (nodup_spiralCells radius) ⟨[], [Plot.hazard], sseed, 0⟩ rng c (fun c' _ => rfl)
  simpa [designate] using this

/-! ### Whole-pipeline composition -/

/-- `Settlement::generate` unfolded into its four named stages. -/
theorem generate_unfold (wpos : Coord) (sim : Option Oracle) (rng : Rng) :
    Settlement.generate wpos sim rng =
      placeBuildings sim
        (placeTown
          (placeFarms (genDesignated wpos sim rng).1 (genDesignated wpos sim rng).2).1
          (placeFarms (genDesignated wpos sim rng).1 (genDesignated wpos sim rng).2).2).1
        (placeTown
          (placeFarms (genDesignated wpos sim rng).1 (genDesignated wpos sim rng).2).1
          (placeFarms (genDesignated wpos sim rng).1 (genDesignated wpos sim rng).2).2).2 :=
  rfl

/-- Arena integrity survives the whole pipeline. -/
theorem generate_LandWF (wpos : Coord) (sim : Option Oracle) (rng : Rng) :
    LandWF ((Settlement.generate wpos sim rng).1).land := by
  rw [generate_unfold, placeBuildings_land]
  exact placeTown_LandWF _ _ (placeFarms_LandWF _ _ (genDesignated_LandWF wpos sim rng))

/-- Crop discipline survives the whole pipeline. -/
theorem generate_PlotsOK (wpos : Coord) (sim : Option Oracle) (rng : Rng) :
    PlotsOK ((Settlement.generate wpos sim rng).1).land := by
  rw [generate_unfold, placeBuildings_land]
  exact placeTown_PlotsOK _ _ (placeFarms_PlotsOK _ _ (genDesignated_PlotsOK wpos sim rng))

/-! ### The all-rejecting world oracle (claim C4's scenario) -/

/-- The C4 scenario oracle: `can_host_settlement` rejects every chunk; the
altitude and nearest-path responses never matter for designation or
farming. -/
def rejectAll : Oracle := ⟨fun _ => false, fun _ => none, fun _ => none⟩

/-- Under `rejectAll`, the sixteen-sub-point test fails at every cell. -/
theorem subFails_rejectAll (wpos : Coord) : subFails rejectAll wpos = true := by
  unfold subFails
  rw [List.any_eq_true]
  exact ⟨(0, 0), by decide, rfl⟩

/-- Under `rejectAll`, the designation walk marks every walked cell (the
1-in-16 draw is dead code: `||` short-circuits on the failed sub-point
test, so the rng is never consulted). -/
theorem markSet_rejectAll (origin : Coord) :
    ∀ (cells : List Coord) (rng : Rng),
      markSet rejectAll origin cells rng = cells := by
  intro cells
  induction cells with
  | nil => intro rng; rfl
  | cons e t ih =>
    intro rng
    rw [markSet_cons_fail rejectAll origin e t rng (subFails_rejectAll _)]
    rw [ih rng]

/-- Designation from a fresh land under `rejectAll`: the tile map afterwards
holds the hazard placeholder at exactly the walked cells. -/
theorem designate_rejectAll_tileAt (wpos : Coord) (sseed : Nat) (rng : Rng)
    (c : Coord) :
    ((designate rejectAll wpos tileRadius
        (⟨[], [Plot.hazard], sseed, 0⟩, rng)).1).tileAt c =
      (if c ∈ spiralCells tileRadius then some (mkTile 0) else none) := by
  have h := designate_fold_tileAt rejectAll wpos (spiralCells tileRadius)
    (nodup_spiralCells tileRadius) ⟨[], [Plot.hazard], sseed, 0⟩ rng c (fun c' _ => rfl)
  rw [markSet_rejectAll] at h
  simpa [designate] using h

theorem genDesignated_rejectAll_tileAt (wpos : Coord) (rng : Rng) (c : Coord) :
    ((genDesignated wpos (some rejectAll) rng).1).land.tileAt c =
      (if c ∈ spiralCells tileRadius then some (mkTile 0) else none) := by
  show ((designate rejectAll wpos tileRadius
    ((genBase wpos rng).1.land, (genBase wpos rng).2)).1).tileAt c = _
  rw [genBase_land]
  exact designate_rejectAll_tileAt wpos _ _ c

theorem genDesignated_rejectAll_plots (wpos : Coord) (rng : Rng) :
    ((genDesignated wpos (some rejectAll) rng).1).land.plots = [Plot.hazard] := by
  show ((designate rejectAll wpos tileRadius
    ((genBase wpos rng).1.land, (genBase wpos rng).2)).1).plots = _
  rw [designate_plots, genBase_land]

theorem genDesignated_rejectAll_HazAt (wpos : Coord) (rng : Rng) {c : Coord}
    (hc : c ∈ spiralCells tileRadius) :
    HazAt ((genDesignated wpos (some rejectAll) rng).1).land c := by
  constructor
  · rw [genDesignated_rejectAll_tileAt wpos rng c, if_pos hc]
  · rw [genDesignated_rejectAll_plots wpos rng]
    rfl

theorem genDesignated_rejectAll_plotAt_none (wpos : Coord) (rng : Rng)
    {c : Coord} (hc : ¬c ∈ spiralCells tileRadius) :
    ((genDesignated wpos (some rejectAll) rng).1).land.plotAt c = none := by
  simp only [Land.plotAt]
  rw [genDesignated_rejectAll_tileAt wpos rng c, if_neg hc]
  rfl

/-- The crux refuting C4's no-op part: the farm stage's spiral search
escapes the finite hazard disc.  The designated disc covers Chebyshev norms
below 12, while the unbounded source spiral reaches, e.g., `(-12, -12)` at
Chebyshev norm 12 — an untiled cell, so `find_tile_near` succeeds. -/
theorem genDesignated_rejectAll_found (wpos : Coord) (rng : Rng) :
    (findTileNear searchFuel ((genDesignated wpos (some rejectAll) rng).1).land
      (0, 0) (fun p => p.isNone)).isSome = true := by
  unfold findTileNear
  rw [List.find?_isSome]
  refine ⟨(-12, -12), ?_, ?_⟩
  · rw [List.mem_map]
    exact ⟨(-12, -12), (mem_spiralCells searchFuel _).2 (by decide), by decide⟩
  · show (((genDesignated wpos (some rejectAll) rng).1).land.plotAt
      (-12, -12)).isNone = true
    rw [genDesignated_rejectAll_plotAt_none wpos rng
      (fun h => absurd ((mem_spiralCells tileRadius _).1 h) (by decide))]
    rfl

/-- Hazard designations survive to the final settlement. -/
theorem generate_rejectAll_HazAt (wpos : Coord) (rng : Rng) {c : Coord}
    (hc : c ∈ spiralCells tileRadius) :
    HazAt ((Settlement.generate wpos (some rejectAll) rng).1).land c := by
  rw [generate_unfold, placeBuildings_land]
  exact placeTown_HazAt _ _
    (placeFarms_HazAt _ _ (genDesignated_rejectAll_HazAt wpos rng hc))

theorem isEmpty_false_of_ne_nil {α : Type _} {l : List α} (h : l ≠ []) :
    l.isEmpty = false := by
  cases l with
  | nil => exact absurd rfl h
  | cons a t => rfl

/-- C4 (counterexample): at origin `(0, 0)`, seed 0 and the all-rejecting
oracle, the generated settlement's farm registry is NOT empty — the
placement stages are not no-ops, because `find_tile_near` spirals past the
finite hazard disc and finds undesignated cells beyond it. -/
theorem C4_farms_counterexample :
    ((Settlement.generate (0, 0) (some rejectAll) ⟨0⟩).1).farms.isEmpty = false := by
  rw [generate_unfold, placeBuildings_farms, placeTown_farms]
  exact isEmpty_false_of_ne_nil
    (placeFarms_nonempty _ _ (genDesignated_rejectAll_found (0, 0) ⟨0⟩))

/-- C4 (amended): with a world oracle rejecting `can_host_settlement`
everywhere, every walked cell of the designation disc (Chebyshev norm below
`radius()/AREA_SIZE = 12`) of the generated settlement holds the `Hazard`
plot — but the placement stages are NOT all no-ops: the spiral search of
the farm stage leaves the finite hazard disc, finds an untiled cell there,
and the farm registry of the final settlement is non-empty. -/
theorem C4_reject_all_oracle (wpos : Coord) (rng : Rng) :
    (spiralCells tileRadius).all
      (fun c =>
        decide (((Settlement.generate wpos (some rejectAll) rng).1).land.plotAt c =
          some Plot.hazard)) = true ∧
    ((Settlement.generate wpos (some rejectAll) rng).1).farms.isEmpty = false := by
  constructor
  · rw [List.all_eq_true]
    intro c hc
    rw [decide_eq_true_eq]
    exact (generate_rejectAll_HazAt wpos rng hc).plotAt
  · rw [generate_unfold, placeBuildings_farms, placeTown_farms]
    exact isEmpty_false_of_ne_nil
      (placeFarms_nonempty _ _ (genDesignated_rejectAll_found wpos rng))

/-! ## Claims C2, C8 and C10 — whole-pipeline invariants -/

/-- C2: in any generated settlement, the 2D bounds of the placed structures
are pairwise non-overlapping.  Only `place_buildings` pushes structures,
and it rejects any candidate colliding with an already-placed structure at
insertion time; the earlier stages leave the structure list empty. -/
theorem C2_structures_pairwise_disjoint (wpos : Coord) (sim : Option Oracle)
    (rng : Rng) :
    ((Settlement.generate wpos sim rng).1).structures.Pairwise
      (fun a b => collides a.bounds2d b.bounds2d = false) := by
  rw [generate_unfold]
  refine placeBuildings_pairwise sim _ _ ?_
  unfold PairwiseOK
  rw [placeTown_structures, placeFarms_structures, genDesignated_structures]
  exact List.Pairwise.nil

/-- C8: in any generated land, every tile's stored plot id is a live index
of the append-only plot arena, so dereferencing it cannot go out of
range — ids are assigned as the arena length on insertion and entries are
never removed. -/
theorem C8_tile_plot_ids_resolvable (wpos : Coord) (sim : Option Oracle)
    (rng : Rng) :
    ((Settlement.generate wpos sim rng).1).land.tiles.all
      (fun pr =>
        decide (pr.2.plot <
          ((Settlement.generate wpos sim rng).1).land.plots.length)) = true := by
  rw [List.all_eq_true]
  intro pr hpr
  rw [decide_eq_true_eq]
  exact (generate_LandWF wpos sim rng).2 pr hpr

/-- C10: every plot of a generated land obeys the crop discipline: a
`Field` plot's crop comes from `cropOfInt` applied to a `gen_range(0, 8)`
draw, whose eight reachable arms are Corn..Radish — `Turnip` and
`Sunflower` are never produced. -/
theorem C10_no_turnip_sunflower (wpos : Coord) (sim : Option Oracle)
    (rng : Rng) :
    ((Settlement.generate wpos sim rng).1).land.plots.all goodCropB = true := by
  rw [List.all_eq_true]
  intro pl hpl
  exact goodCropB_eq_true (generate_PlotsOK wpos sim rng pl hpl)

end Veloren
